import Mathlib

/-!
Verification of the Telco churn preparation pipeline
(`src/data/preprocessing.py`, `src/features/build_features.py`,
`src/utils/validate_data.py`) through a shallow embedding of the
pandas dataframes the pipeline manipulates.

A dataframe is a list of columns; each column carries a name, a pandas
dtype and a positional list of cells.  Missing values (`NaN` / `<NA>`)
are the distinguished cell `Cell.na`.  Machine floats are modelled as
rationals, which is faithful for every operation the pipeline performs
on the values it actually computes with (comparisons, medians, 0/1
codes).
-/

set_option maxHeartbeats 1000000

namespace Telco

/-- Pandas dtypes that occur in the pipeline: `object` (free text),
`int64`, `float64`, nullable `Int64`, and `bool`. -/
inductive Dtype where
  | object
  | int64
  | float64
  | nullableInt64
  | boolT
  deriving DecidableEq

/-- One cell of a dataframe column.  `na` is a missing value. -/
inductive Cell where
  | str (s : String)
  | int (n : Int)
  | float (q : ℚ)
  | bool (b : Bool)
  | na
  deriving DecidableEq

/-- A named, typed column. -/
structure Col where
  name : String
  dtype : Dtype
  cells : List Cell
  deriving DecidableEq

/-- A dataframe: ordered list of columns (rows aligned by position). -/
structure Table where
  cols : List Col
  deriving DecidableEq

/-- A pandas Series (a column value without its name). -/
structure Series where
  dtype : Dtype
  cells : List Cell
  deriving DecidableEq

instance exceptDecEq {α β : Type} [DecidableEq α] [DecidableEq β] :
    DecidableEq (Except α β) := fun a b =>
  match a, b with
  | .ok x, .ok y =>
      if h : x = y then isTrue (by rw [h]) else isFalse (by simp [h])
  | .error x, .error y =>
      if h : x = y then isTrue (by rw [h]) else isFalse (by simp [h])
  | .ok _, .error _ => isFalse (by simp)
  | .error _, .ok _ => isFalse (by simp)

/-- Lexicographic comparison of character lists by code point, as
Python compares strings. -/
def lexLe : List Char → List Char → Bool
  | [], _ => true
  | _ :: _, [] => false
  | x :: xs, y :: ys => if x = y then lexLe xs ys else decide (x.toNat < y.toNat)

/-- Python string `<=` (lexicographic by code point). -/
def strLe (a b : String) : Bool :=
  lexLe a.data b.data

/-- Python `str.strip()`: drop whitespace from both ends. -/
def strStrip (s : String) : String :=
  ⟨((s.data.dropWhile Char.isWhitespace).reverse.dropWhile Char.isWhitespace).reverse⟩

/-- Python `str.lower()`. -/
def strLower (s : String) : String :=
  ⟨s.data.map Char.toLower⟩

/-- Python `str()` rendering of a cell, as used by pandas `astype(str)`.
Crucially, a missing value renders as the literal string "nan". -/
def cellStr : Cell → String
  | .str s => s
  | .int n => toString n
  | .float q => toString q
  | .bool b => if b then "True" else "False"
  | .na => "nan"

/-- `Series.dropna()`: the non-missing cells, in order. -/
def dropna (l : List Cell) : List Cell :=
  l.filter (fun c => decide (c ≠ Cell.na))

/-- `Series.dropna().unique()`: distinct non-missing cells. -/
def uniqueCells (l : List Cell) : List Cell :=
  (dropna l).dedup

/-- `Series.dropna().nunique()` for a column. -/
def colNunique (c : Col) : Nat :=
  (uniqueCells c.cells).length

/-- `df[n]`: first column named `n`, if any. -/
def findCol (df : Table) (n : String) : Option Col :=
  df.cols.find? (fun c => decide (c.name = n))

/-- `df[n].dropna().nunique()`, 0 when the column is absent. -/
def tableNunique (df : Table) (n : String) : Nat :=
  match findCol df n with
  | some c => colNunique c
  | none => 0

/-- `df[n] = f(df[n])`: rewrite the column(s) named `n`. -/
def updateCol (df : Table) (n : String) (f : Col → Col) : Table :=
  ⟨df.cols.map (fun c => if c.name = n then f c else c)⟩

/-- Value of a run of decimal digits; `none` when a non-digit occurs. -/
def digitsVal (cs : List Char) : Option Nat :=
  cs.foldl
    (fun acc c =>
      acc.bind (fun v =>
        if c.isDigit then some (v * 10 + (c.toNat - Char.toNat '0')) else none))
    (some 0)

/-- Parse an unsigned decimal literal (digits with at most one dot).
Returns the value and whether the literal used integer syntax (no dot),
mirroring `pd.to_numeric` choosing int64 vs float64. -/
def parseUnsigned (cs : List Char) : Option (ℚ × Bool) :=
  match cs.span (fun c => decide (c ≠ '.')) with
  | (ip, []) =>
      if ip.isEmpty then none
      else (digitsVal ip).map (fun v => (Rat.divInt (v : Int) 1, true))
  | (ip, _ :: fp) =>
      if fp.any (fun c => decide (c = '.')) then none
      else if ip.isEmpty && fp.isEmpty then none
      else do
        let iv ← digitsVal ip
        let fv ← digitsVal fp
        some (Rat.divInt ((iv * 10 ^ fp.length + fv : Nat) : Int) ((10 ^ fp.length : Nat) : Int),
          false)

/-- Parse a numeric string as Python/pandas coercion does (optional
sign, decimal digits, optional fraction); whitespace is stripped. -/
def parseNum (s : String) : Option (ℚ × Bool) :=
  match (strStrip s).data with
  | c :: rest =>
      if c = '-' then (parseUnsigned rest).map (fun p => (-p.1, p.2))
      else if c = '+' then parseUnsigned rest
      else parseUnsigned (c :: rest)
  | [] => none

/-- Numeric value of a string, `none` when unparseable. -/
def parseRat (s : String) : Option ℚ :=
  (parseNum s).map (fun p => p.1)

/-- `pd.to_numeric(cell, errors="coerce")` on a single cell: the value
and whether it came from integer syntax. -/
def coerceNum : Cell → Option (ℚ × Bool)
  | .str s => parseNum s
  | .int n => some ((n : ℚ), true)
  | .float q => some (q, false)
  | .bool b => some (if b then (1 : ℚ) else 0, true)
  | .na => none

/-! ### Preprocessor (`src/data/preprocessing.py`, `preprocess_data`) -/

/-- The identifier aliases dropped by the preprocessor. -/
def id_cols : List String := ["customerID", "CustomerID", "customer_id"]

/-- `df.columns = df.columns.str.strip()`. -/
def stripHeadersStep (df : Table) : Table :=
  ⟨df.cols.map (fun c => ⟨strStrip c.name, c.dtype, c.cells⟩)⟩

/-- `df = df.drop(columns=[c for c in id_cols if c in df.columns])`. -/
def dropIdsStep (df : Table) : Table :=
  ⟨df.cols.filter (fun c => decide (c.name ∉ id_cols))⟩

/-- Target normalisation: when the column is text, strip, lower-case and
map no/yes to 0/1; unmapped values become missing.  The mapped series is
`int64` when everything mapped and `float64` (with `NaN`s) otherwise,
as `Series.map` produces. -/
def mapTargetCol (col : Col) : Col :=
  if col.dtype = Dtype.object then
    let mapped : List (Option Int) :=
      col.cells.map (fun c =>
        match c with
        | .str s =>
            let t := strLower (strStrip s)
            if t = "no" then some 0 else if t = "yes" then some 1 else none
        | _ => none)
    if mapped.all Option.isSome then
      ⟨col.name, .int64,
        mapped.map (fun o => match o with | some n => Cell.int n | none => Cell.na)⟩
    else
      ⟨col.name, .float64,
        mapped.map (fun o => match o with | some n => Cell.float (n : ℚ) | none => Cell.na)⟩
  else col

/-- `df[target_col] = df[target_col].str.strip().str.lower().map(...)`,
guarded by the column being present (`updateCol` is the identity when it
is not) and text-typed. -/
def mapTargetStep (df : Table) (target : String) : Table :=
  updateCol df target mapTargetCol

/-- `pd.to_numeric(col, errors="coerce")`: int64 when every entry parses
with integer syntax, float64 (missing for unparseable entries) otherwise. -/
def toNumericCol (c : Col) : Col :=
  let parsed := c.cells.map coerceNum
  if parsed.all (fun p => (p.map Prod.snd).getD false) then
    ⟨c.name, .int64,
      parsed.map (fun p => match p with | some pr => Cell.int pr.1.num | none => Cell.na)⟩
  else
    ⟨c.name, .float64,
      parsed.map (fun p => match p with | some pr => Cell.float pr.1 | none => Cell.na)⟩

/-- `df["TotalCharges"] = pd.to_numeric(df["TotalCharges"], errors="coerce")`. -/
def totalChargesStep (df : Table) : Table :=
  updateCol df "TotalCharges" toNumericCol

/-- Python `int(s)`: optional sign and a non-empty digit run. -/
def strToInt (s : String) : Option Int :=
  let digitsNE : List Char → Option Int := fun cs =>
    if cs.isEmpty then none else (digitsVal cs).map (fun n => (n : Int))
  match (strStrip s).data with
  | c :: rest =>
      if c = '-' then (digitsNE rest).map (fun n => -n)
      else if c = '+' then digitsNE rest
      else digitsNE (c :: rest)
  | [] => none

/-- `fillna(0).astype(int)` on one cell; fails (as `astype` raises) on a
non-integer string. -/
def cellFillnaZeroToInt : Cell → Except String Int
  | .na => .ok 0
  | .int n => .ok n
  | .float q => .ok (if q < 0 then ⌈q⌉ else ⌊q⌋)
  | .bool b => .ok (if b then 1 else 0)
  | .str s =>
      match strToInt s with
      | some n => .ok n
      | none => .error "invalid literal for int()"

/-- Error-propagating map over a list, first failure wins (a Python
`for` loop that may raise). -/
def exMap (f : α → Except String β) : List α → Except String (List β)
  | [] => .ok []
  | x :: xs =>
    match f x with
    | .error e => .error e
    | .ok y =>
      match exMap f xs with
      | .error e => .error e
      | .ok ys => .ok (y :: ys)

/-- `fillna(0).astype(int)` on a whole column. -/
def seniorCol (c : Col) : Except String Col :=
  if c.name = "SeniorCitizen" then
    match exMap cellFillnaZeroToInt c.cells with
    | .error e => .error e
    | .ok vals => .ok ⟨c.name, Dtype.int64, vals.map Cell.int⟩
  else .ok c

/-- `df["SeniorCitizen"] = df["SeniorCitizen"].fillna(0).astype(int)`. -/
def seniorStep (df : Table) : Except String Table :=
  match exMap seniorCol df.cols with
  | .error e => .error e
  | .ok cols => .ok ⟨cols⟩

/-- Numeric value of a cell of a numeric column (`NaN` is missing). -/
def cellRat : Cell → Option ℚ
  | .int n => some (n : ℚ)
  | .float q => some q
  | _ => none

/-- Dtypes selected by `df.select_dtypes(include="number")`. -/
def isNumericDtype : Dtype → Bool
  | .int64 => true
  | .float64 => true
  | .nullableInt64 => true
  | _ => false

/-- Mean of two rationals, computed on numerators and denominators
(kernel-computable form of `(a + b) / 2`; see `qMid_eq`). -/
def qMid (a b : ℚ) : ℚ :=
  Rat.divInt (a.num * (b.den : Int) + b.num * (a.den : Int))
    (2 * ((a.den : Int) * (b.den : Int)))

theorem qMid_eq (a b : ℚ) : qMid a b = (a + b) / 2 := by
  have ha : ((a.den : ℚ)) ≠ 0 := by
    exact_mod_cast a.den_nz
  have hb : ((b.den : ℚ)) ≠ 0 := by
    exact_mod_cast b.den_nz
  rw [qMid, Rat.divInt_eq_div]
  conv_rhs => rw [← Rat.num_div_den a, ← Rat.num_div_den b]
  push_cast
  field_simp
  exact Or.inl (by ring)

/-- `Series.median()` (NaN-skipping): middle of the sorted non-missing
values, mean of the two middles for even counts, `none` when empty. -/
def medianQ (l : List ℚ) : Option ℚ :=
  let s := List.insertionSort (fun a b => a ≤ b) l
  let m := s.length
  if m = 0 then none
  else if m % 2 = 1 then some (s.getD (m / 2) 0)
  else some (qMid (s.getD (m / 2 - 1) 0) (s.getD (m / 2) 0))

/-- `df[col] = df[col].fillna(df[col].median())` when the column has
missing entries.  Filling an `Int64` column with a fractional median
raises, as pandas refuses the unsafe cast. -/
def fillMedianCol (col : Col) : Except String Col :=
  if col.cells.any (fun c => decide (c = Cell.na)) then
    match medianQ (col.cells.filterMap cellRat) with
    | none => .ok col
    | some m =>
      match col.dtype with
      | .float64 =>
          .ok ⟨col.name, .float64,
            col.cells.map (fun c => if c = Cell.na then Cell.float m else c)⟩
      | .nullableInt64 =>
          if m.den = 1 then
            .ok ⟨col.name, .nullableInt64,
              col.cells.map (fun c => if c = Cell.na then Cell.int m.num else c)⟩
          else .error "cannot safely cast non-equivalent float64 to Int64"
      | _ => .ok col
  else .ok col

/-- The numeric-NA loop: every numeric column with missing entries is
filled with its own median (independently per column). -/
def medianStep (df : Table) : Except String Table :=
  match exMap (fun c => if isNumericDtype c.dtype then fillMedianCol c else .ok c) df.cols with
  | .error e => .error e
  | .ok cols => .ok ⟨cols⟩

/-- Number of rows (pandas aligns all columns on one index). -/
def nrows (df : Table) : Nat :=
  match df.cols with
  | [] => 0
  | c :: _ => c.cells.length

/-- `df.empty`: true when either axis has length zero. -/
def tableEmpty (df : Table) : Bool :=
  df.cols.isEmpty || decide (nrows df = 0)

/-- `preprocess_data(df, target_col)` from `src/data/preprocessing.py`:
strip headers, drop identifier columns, normalise the target, coerce
TotalCharges, normalise SeniorCitizen, median-fill numeric columns,
and raise when the result is empty. -/
def preprocess_data (df : Table) (target : String) : Except String Table :=
  let t4 := totalChargesStep (mapTargetStep (dropIdsStep (stripHeadersStep df)) target)
  match seniorStep t4 with
  | .error e => .error e
  | .ok t5 =>
    match medianStep t5 with
    | .error e => .error e
    | .ok t6 =>
      if tableEmpty t6 then .error "Preprocessed dataframe is empty."
      else .ok t6

/-! ### Feature encoder (`src/features/build_features.py`) -/

/-- `series.astype(str)`: every cell rendered as a string; missing
values become the literal string "nan". -/
def astypeStrCells (l : List Cell) : List Cell :=
  l.map (fun c => Cell.str (cellStr c))

/-- `_map_binary_series(s)`: deterministic binary encoding.  The
observed value set {"Yes","No"} maps No to 0 and Yes to 1; the set
{"Male","Female"} maps Female to 0 and Male to 1; any other pair of
observed values is sorted and the smaller mapped to 0; otherwise the
series is returned unchanged.  Mapped series are nullable `Int64`. -/
def _map_binary_series (s : Series) : Series :=
  let vals : List String := (uniqueCells s.cells).map cellStr
  let valset : Finset String := vals.toFinset
  if valset = {"Yes", "No"} then
    ⟨.nullableInt64,
      s.cells.map (fun c =>
        match c with
        | .str "No" => Cell.int 0
        | .str "Yes" => Cell.int 1
        | _ => Cell.na)⟩
  else if valset = {"Male", "Female"} then
    ⟨.nullableInt64,
      s.cells.map (fun c =>
        match c with
        | .str "Female" => Cell.int 0
        | .str "Male" => Cell.int 1
        | _ => Cell.na)⟩
  else if vals.length = 2 then
    let sv := List.insertionSort (fun a b => strLe a b = true) vals
    ⟨.nullableInt64,
      s.cells.map (fun c =>
        let v := cellStr c
        if v = sv.getD 1 "" then Cell.int 1
        else if v = sv.getD 0 "" then Cell.int 0
        else Cell.na)⟩
  else s

/-- Names of the non-target `object` columns, in column order. -/
def objColNames (df : Table) (target : String) : List String :=
  (df.cols.filter (fun c => decide (c.dtype = Dtype.object ∧ c.name ≠ target))).map
    (fun c => c.name)

/-- Object columns with exactly two distinct non-missing values. -/
def binaryColNames (df : Table) (target : String) : List String :=
  (objColNames df target).filter (fun n => decide (tableNunique df n = 2))

/-- Object columns with more than two distinct non-missing values. -/
def multiColNames (df : Table) (target : String) : List String :=
  (objColNames df target).filter (fun n => decide (tableNunique df n > 2))

/-- One column of step 3: a binary column is re-assigned the result of
`_map_binary_series(df[c].astype(str))`, every other column is left
alone. -/
def binaryEncodeCol (binNames : List String) (c : Col) : Col :=
  if c.name ∈ binNames then
    let s := _map_binary_series ⟨Dtype.object, astypeStrCells c.cells⟩
    ⟨c.name, s.dtype, s.cells⟩
  else c

/-- Step 3: `df[c] = _map_binary_series(df[c].astype(str))` for every
binary column. -/
def binaryEncodeStep (df : Table) (binNames : List String) : Table :=
  ⟨df.cols.map (binaryEncodeCol binNames)⟩

/-- `astype(int)` on a boolean column. -/
def boolToIntCol (c : Col) : Col :=
  if c.dtype = Dtype.boolT then
    ⟨c.name, .int64,
      c.cells.map (fun x =>
        match x with
        | .bool b => Cell.int (if b then 1 else 0)
        | y => y)⟩
  else c

/-- Step 4: `df[bool_cols] = df[bool_cols].astype(int)`. -/
def boolStep (df : Table) : Table :=
  ⟨df.cols.map boolToIntCol⟩

/-- The string values of the non-missing cells, in order. -/
def nonNullStrs (l : List Cell) : List String :=
  l.filterMap (fun c =>
    match c with
    | .str s => some s
    | _ => none)

/-- The sorted distinct categories `pd.get_dummies` uses for a column. -/
def dummyCats (c : Col) : List String :=
  List.insertionSort (fun a b => strLe a b = true) (nonNullStrs c.cells).dedup

/-- The indicator columns `pd.get_dummies(..., drop_first=True)`
generates for one column: one boolean column `name_value` per category
except the first (reference) one; missing rows indicate nowhere. -/
def dummiesForCol (c : Col) : List Col :=
  ((dummyCats c).drop 1).map (fun v =>
    ⟨c.name ++ "_" ++ v, Dtype.boolT,
      c.cells.map (fun x => Cell.bool (decide (x = Cell.str v)))⟩)

/-- Step 5: `df = pd.get_dummies(df, columns=multi_cols,
drop_first=True)` (run only when `multi_cols` is non-empty): encoded
columns are removed in place and their indicators appended. -/
def getDummiesStep (df : Table) (multiNames : List String) : Table :=
  if multiNames.isEmpty then df
  else
    ⟨(df.cols.filter (fun c => decide (c.name ∉ multiNames))) ++
      multiNames.flatMap (fun n =>
        match findCol df n with
        | some c => dummiesForCol c
        | none => [])⟩

/-- `pd.api.types.is_integer_dtype`. -/
def isIntegerDtype : Dtype → Bool
  | .int64 => true
  | .nullableInt64 => true
  | _ => false

/-- One column of step 6: an integer-typed binary column has its
missing entries filled with 0 and is cast to plain int64. -/
def cleanupCol (binNames : List String) (c : Col) : Col :=
  if c.name ∈ binNames then
    if isIntegerDtype c.dtype then
      ⟨c.name, .int64, c.cells.map (fun x => if x = Cell.na then Cell.int 0 else x)⟩
    else c
  else c

/-- Step 6: for every binary column that is integer-typed,
`df[c] = df[c].fillna(0).astype(int)`. -/
def cleanupStep (df : Table) (binNames : List String) : Table :=
  ⟨df.cols.map (cleanupCol binNames)⟩

/-- `build_features(df, target_col)` from
`src/features/build_features.py`: classify the non-target text columns,
binary-encode the two-valued ones, cast booleans to int, one-hot encode
the multi-valued ones, and clean up integer-typed binary columns. -/
def build_features (df : Table) (target : String) : Table :=
  let binNames := binaryColNames df target
  let multiNames := multiColNames df target
  let t3 := binaryEncodeStep df binNames
  let t4 := boolStep t3
  let t5 := getDummiesStep t4 multiNames
  cleanupStep t5 binNames

/-! ### Validator (`src/utils/validate_data.py`, `validate_telco_data`)

The required-columns gate and the report assembly are translated from
the repository code.  The individual expectation semantics live in the
Great Expectations library, which is not part of the repository; they
are modelled from the spec (see the doc comments below). -/

/-- The fixed ten-column required set. -/
def required_cols : List String :=
  ["customerID", "gender", "Partner", "Dependents",
   "PhoneService", "InternetService", "Contract",
   "tenure", "MonthlyCharges", "TotalCharges"]

/-- The structured validation report returned by the validator. -/
structure ValidationReport where
  success : Bool
  missing_columns : List String
  failed_expectations : List String
  total_checks : Nat
  passed_checks : Nat
  failed_checks : Nat
  details : String
  deriving DecidableEq

/-- Modelled from the spec: numeric coercion used by the validator
(blank-string-as-missing to numeric; already numeric values pass
through; missing stays missing). -/
def cellNumQ : Cell → Option ℚ
  | .int n => some (n : ℚ)
  | .float q => some q
  | .str s => parseRat s
  | .bool b => some (if b then (1 : ℚ) else 0)
  | .na => none

/-- Modelled from the spec: `expect_column_values_to_not_be_null` — a
non-null check on the whole column. -/
def checkNotNull (df : Table) (n : String) : Bool :=
  match findCol df n with
  | some c => c.cells.all (fun x => decide (x ≠ Cell.na))
  | none => true

/-- Modelled from the spec: `expect_column_values_to_be_in_set` — every
non-missing value must lie in the enumerated domain. -/
def checkInSet (df : Table) (n : String) (vs : List String) : Bool :=
  match findCol df n with
  | some c =>
      c.cells.all (fun x =>
        match x with
        | .na => true
        | .str s => decide (s ∈ vs)
        | _ => false)
  | none => true

/-- Modelled from the spec: `expect_column_values_to_be_between` — each
value, coerced to numeric, must lie in the given range wherever
non-missing. -/
def checkBetween (df : Table) (n : String) (lo : ℚ) (hi : Option ℚ) : Bool :=
  match findCol df n with
  | some c =>
      c.cells.all (fun x =>
        match cellNumQ x with
        | none => true
        | some q =>
            decide (lo ≤ q) &&
              (match hi with
               | none => true
               | some h => decide (q ≤ h)))
  | none => true

/-- The (coerced TotalCharges, coerced MonthlyCharges) value pairs, row
by row. -/
def pairRows (df : Table) : List (Option ℚ × Option ℚ) :=
  match findCol df "TotalCharges", findCol df "MonthlyCharges" with
  | some a, some b => (a.cells.zip b.cells).map (fun p => (cellNumQ p.1, cellNumQ p.2))
  | _, _ => []

/-- Rows where the coerced TotalCharges value is present. -/
def pairPresent (df : Table) : Nat :=
  (pairRows df).countP (fun p => p.1.isSome)

/-- Rows satisfying TotalCharges ≥ MonthlyCharges (both present). -/
def pairSat (df : Table) : Nat :=
  (pairRows df).countP (fun p =>
    match p.1, p.2 with
    | some a, some b => decide (b ≤ a)
    | _, _ => false)

/-- Modelled from the spec:
`expect_column_pair_values_A_to_be_greater_than_B(..., or_equal=True,
mostly=0.95)` — among the rows where the coerced TotalCharges value is
present, at least 95% must satisfy TotalCharges ≥ MonthlyCharges. -/
def checkPairMostly (df : Table) : Bool :=
  decide (19 * pairPresent df ≤ 20 * pairSat df)

/-- The thirteen expectations run by `validate_telco_data`, in
declaration order, each tagged with its `expectation_type`. -/
def geChecks (df : Table) : List (String × Bool) :=
  [("expect_column_values_to_not_be_null", checkNotNull df "customerID"),
   ("expect_column_values_to_be_in_set", checkInSet df "gender" ["Male", "Female"]),
   ("expect_column_values_to_be_in_set", checkInSet df "Partner" ["Yes", "No"]),
   ("expect_column_values_to_be_in_set", checkInSet df "Dependents" ["Yes", "No"]),
   ("expect_column_values_to_be_in_set", checkInSet df "PhoneService" ["Yes", "No"]),
   ("expect_column_values_to_be_in_set",
      checkInSet df "Contract" ["Month-to-month", "One year", "Two year"]),
   ("expect_column_values_to_be_in_set",
      checkInSet df "InternetService" ["DSL", "Fiber optic", "No"]),
   ("expect_column_values_to_be_between", checkBetween df "tenure" 0 (some 120)),
   ("expect_column_values_to_be_between", checkBetween df "MonthlyCharges" 0 (some 200)),
   ("expect_column_values_to_be_between", checkBetween df "TotalCharges" 0 none),
   ("expect_column_values_to_not_be_null", checkNotNull df "tenure"),
   ("expect_column_values_to_not_be_null", checkNotNull df "MonthlyCharges"),
   ("expect_column_pair_values_A_to_be_greater_than_B", checkPairMostly df)]

/-- `validate_telco_data(df)`: the required-columns gate short-circuits
with the single identifier "missing_required_columns" and zero checks;
otherwise the thirteen expectations run and every failed one appends
its `expectation_type` to the failure list. -/
def validate_telco_data (df : Table) : ValidationReport :=
  let missing := required_cols.filter (fun c => (findCol df c).isNone)
  if missing.isEmpty then
    let results := geChecks df
    let failed := (results.filter (fun r => !r.2)).map (fun r => r.1)
    let total := results.length
    let passed := results.countP (fun r => r.2)
    let ok := results.all (fun r => r.2)
    ⟨ok, [], failed, total, passed, total - passed,
      if ok then "Validation passed successfully." else "Validation failed."⟩
  else
    ⟨false, missing, ["missing_required_columns"], 0, 0, 0,
      "Schema validation failed due to missing required columns."⟩

/-! ### Heap semantics for the frame claim

`preprocess_data` and `build_features` both start with `df = df.copy()`
and thereafter mutate only the copy (or rebind the local name to frames
returned by `drop` / `get_dummies`).  To state that the caller's frame
is untouched we run the same statements over an explicit heap of
frames: `copy`, `drop` and `get_dummies` allocate, column assignments
mutate in place. -/

/-- A heap of dataframes; references are list indices. -/
abbrev Heap := List Table

/-- Dereference (out-of-range references yield an empty frame). -/
def heapGet (h : Heap) (r : Nat) : Table :=
  h.getD r ⟨[]⟩

/-- In-place mutation of the frame behind a reference. -/
def heapSet (h : Heap) (r : Nat) (t : Table) : Heap :=
  h.set r t

/-- `preprocess_data` as heap statements: `df = df.copy()` allocates,
`df.columns = ...` and all `df[col] = ...` statements mutate the bound
frame, `df = df.drop(...)` rebinds to a fresh frame. -/
def preprocess_data_prog (h : Heap) (r : Nat) (target : String) :
    Heap × Except String Nat :=
  let r2 := h.length
  let h := h ++ [heapGet h r]
  let h := heapSet h r2 (stripHeadersStep (heapGet h r2))
  let r3 := h.length
  let h := h ++ [dropIdsStep (heapGet h r2)]
  let h := heapSet h r3 (mapTargetStep (heapGet h r3) target)
  let h := heapSet h r3 (totalChargesStep (heapGet h r3))
  match seniorStep (heapGet h r3) with
  | .error e => (h, .error e)
  | .ok t =>
    let h := heapSet h r3 t
    match medianStep (heapGet h r3) with
    | .error e => (h, .error e)
    | .ok t2 =>
      let h := heapSet h r3 t2
      if tableEmpty (heapGet h r3) then
        (h, .error "Preprocessed dataframe is empty.")
      else (h, .ok r3)

/-- `build_features` as heap statements: `df = df.copy()` allocates,
the binary/bool/cleanup assignments mutate the copy, and
`df = pd.get_dummies(...)` (when it runs) rebinds to a fresh frame. -/
def build_features_prog (h : Heap) (r : Nat) (target : String) : Heap × Nat :=
  let r2 := h.length
  let h := h ++ [heapGet h r]
  let binNames := binaryColNames (heapGet h r2) target
  let multiNames := multiColNames (heapGet h r2) target
  let h := heapSet h r2 (binaryEncodeStep (heapGet h r2) binNames)
  let h := heapSet h r2 (boolStep (heapGet h r2))
  let hr3 : Heap × Nat :=
    if multiNames.isEmpty then (h, r2)
    else (h ++ [getDummiesStep (heapGet h r2) multiNames], h.length)
  let h := heapSet hr3.1 hr3.2 (cleanupStep (heapGet hr3.1 hr3.2) binNames)
  (h, hr3.2)

/-! ### Claim theorems -/

/-- Claim C2 (code bug): for a two-valued text column that also
contains a missing entry, the claimed behaviour — the two observed
values map to 0/1 and the missing entry passes through as missing —
does not happen.  `build_features` first applies `astype(str)`, which
turns the missing entry into the string "nan"; the column then shows
three distinct values, `_map_binary_series` declines to map it, and the
column comes back unchanged as text (with the missing entry now the
literal string "nan"). -/
theorem build_features_missing_binary_bug :
    build_features ⟨[⟨"Partner", .object, [.str "Yes", .na, .str "No"]⟩]⟩ "Churn" =
      ⟨[⟨"Partner", .object, [.str "Yes", .str "nan", .str "No"]⟩]⟩ := by
  decide

/-- Claim C6: when any of the ten required columns is absent, the
validator short-circuits: success is false, the failure list is exactly
["missing_required_columns"], and zero checks are reported. -/
theorem validate_missing_required_columns (df : Table) (r : String)
    (hr : r ∈ required_cols) (hmiss : findCol df r = none) :
    (validate_telco_data df).success = false ∧
    (validate_telco_data df).failed_expectations = ["missing_required_columns"] ∧
    (validate_telco_data df).total_checks = 0 ∧
    (validate_telco_data df).passed_checks = 0 ∧
    (validate_telco_data df).failed_checks = 0 := by
  have hmem : r ∈ required_cols.filter (fun c => (findCol df c).isNone) := by
    rw [List.mem_filter]
    exact ⟨hr, by rw [hmiss]; rfl⟩
  have hne : (required_cols.filter (fun c => (findCol df c).isNone)).isEmpty ≠ true := by
    intro h
    rw [List.isEmpty_iff] at h
    rw [h] at hmem
    exact absurd hmem (List.not_mem_nil r)
  rw [validate_telco_data, if_neg hne]
  exact ⟨rfl, rfl, rfl, rfl, rfl⟩

/-- Witness for C6 at a concrete table: the empty table misses
"gender", so the gate fires. -/
theorem validate_missing_required_columns_witness :
    "gender" ∈ required_cols ∧ findCol ⟨[]⟩ "gender" = none ∧
    ((validate_telco_data ⟨[]⟩).success = false ∧
     (validate_telco_data ⟨[]⟩).failed_expectations = ["missing_required_columns"] ∧
     (validate_telco_data ⟨[]⟩).total_checks = 0 ∧
     (validate_telco_data ⟨[]⟩).passed_checks = 0 ∧
     (validate_telco_data ⟨[]⟩).failed_checks = 0) :=
  ⟨by decide, by decide,
    validate_missing_required_columns ⟨[]⟩ "gender" (by decide) (by decide)⟩

/-- Claim C9: on a table with no non-target text column,
`build_features` only casts boolean columns to 0/1 integers and leaves
everything else unchanged. -/
theorem build_features_numeric_identity (df : Table) (target : String)
    (hobj : ∀ c ∈ df.cols, c.dtype = Dtype.object → c.name = target) :
    build_features df target = ⟨df.cols.map boolToIntCol⟩ := by
  have hnames : objColNames df target = [] := by
    rw [objColNames, List.map_eq_nil, List.filter_eq_nil]
    intro c hc
    simp only [decide_eq_true_eq, not_and, ne_eq, not_not]
    exact fun hdt => hobj c hc hdt
  have hb : binaryColNames df target = [] := by
    rw [binaryColNames, hnames]
    rfl
  have hm : multiColNames df target = [] := by
    rw [multiColNames, hnames]
    rfl
  have henc : binaryEncodeStep df [] = df := by
    rw [binaryEncodeStep]
    have h0 : df.cols.map (binaryEncodeCol []) = df.cols.map id := by
      apply List.map_congr_left
      intro c _
      rw [binaryEncodeCol, if_neg (List.not_mem_nil c.name)]
      rfl
    rw [h0, List.map_id]
  have hclean : ∀ t : Table, cleanupStep t [] = t := by
    intro t
    rw [cleanupStep]
    have h0 : t.cols.map (cleanupCol []) = t.cols.map id := by
      apply List.map_congr_left
      intro c _
      rw [cleanupCol, if_neg (List.not_mem_nil c.name)]
      rfl
    rw [h0, List.map_id]
  rw [build_features]
  simp only [hb, hm, henc, getDummiesStep, List.isEmpty_nil, if_pos, hclean]
  rfl

/-- Witness for C9 on a table with a bool, an int and a text target
column. -/
theorem build_features_numeric_identity_witness :
    (∀ c ∈ (⟨[⟨"Churn", .object, [.str "Yes"]⟩, ⟨"flag", .boolT, [.bool true]⟩,
        ⟨"x", .int64, [.int 3]⟩]⟩ : Table).cols, c.dtype = Dtype.object → c.name = "Churn") ∧
    build_features ⟨[⟨"Churn", .object, [.str "Yes"]⟩, ⟨"flag", .boolT, [.bool true]⟩,
        ⟨"x", .int64, [.int 3]⟩]⟩ "Churn" =
      ⟨[⟨"Churn", .object, [.str "Yes"]⟩, ⟨"flag", .boolT, [.bool true]⟩,
        ⟨"x", .int64, [.int 3]⟩].map boolToIntCol⟩ :=
  ⟨by decide,
    build_features_numeric_identity
      ⟨[⟨"Churn", .object, [.str "Yes"]⟩, ⟨"flag", .boolT, [.bool true]⟩,
        ⟨"x", .int64, [.int 3]⟩]⟩ "Churn" (by decide)⟩

/-- Successful elements of an error-propagating map come from applying
the function to some element of the input list. -/
theorem exMap_ok_mem {α β : Type} {f : α → Except String β} {l : List α} {l2 : List β}
    (h : exMap f l = .ok l2) : ∀ y ∈ l2, ∃ x ∈ l, f x = .ok y := by
  induction l generalizing l2 with
  | nil =>
    rw [exMap] at h
    cases h
    intro y hy
    exact absurd hy (List.not_mem_nil y)
  | cons a as ih =>
    rw [exMap] at h
    cases hfa : f a with
    | error e => rw [hfa] at h; exact absurd h (by simp)
    | ok y =>
      rw [hfa] at h
      cases hrest : exMap f as with
      | error e => rw [hrest] at h; exact absurd h (by simp)
      | ok ys =>
        rw [hrest] at h
        simp only [Except.ok.injEq] at h
        subst h
        intro z hz
        rcases List.mem_cons.mp hz with hz | hz
        · exact ⟨a, List.mem_cons_self a as, by rw [hfa, hz]⟩
        · obtain ⟨x, hx, hfx⟩ := ih hrest z hz
          exact ⟨x, List.mem_cons_of_mem a hx, hfx⟩

/-- `mapTargetCol` keeps the column name. -/
theorem mapTargetCol_name (c : Col) : (mapTargetCol c).name = c.name := by
  by_cases h : c.dtype = Dtype.object
  · rw [mapTargetCol, if_pos h]
    dsimp only
    split <;> rfl
  · rw [mapTargetCol, if_neg h]

/-- `toNumericCol` keeps the column name. -/
theorem toNumericCol_name (c : Col) : (toNumericCol c).name = c.name := by
  rw [toNumericCol]
  split <;> rfl

/-- An all-integer 0/1 column passes through `toNumericCol` unchanged
up to dtype (which becomes int64 again). -/
theorem toNumericCol_zero_one (c : Col) (hdt : c.dtype = Dtype.int64)
    (hc : ∀ x ∈ c.cells, x = Cell.int 0 ∨ x = Cell.int 1) :
    toNumericCol c = c := by
  have hall : (c.cells.map coerceNum).all (fun p => (p.map Prod.snd).getD false) = true := by
    rw [List.all_eq_true]
    intro p hp
    rw [List.mem_map] at hp
    obtain ⟨x, hx, rfl⟩ := hp
    rcases hc x hx with rfl | rfl <;> rfl
  have hcells : (c.cells.map coerceNum).map (fun p => match p with
      | some pr => Cell.int pr.1.num
      | none => Cell.na) = c.cells := by
    rw [List.map_map]
    have hpt : ∀ x ∈ c.cells, ((fun p => match p with
        | some pr => Cell.int pr.1.num
        | none => Cell.na) ∘ coerceNum) x = id x := by
      intro x hx
      rcases hc x hx with rfl | rfl <;> decide
    rw [List.map_congr_left hpt, List.map_id]
  rw [toNumericCol]
  rw [if_pos hall]
  cases c with
  | mk nm dt cells =>
    simp only at hdt hcells ⊢
    rw [hcells, hdt]

/-- A text cell that strips and lower-cases to "yes" or "no". -/
def isYesNoCell : Cell → Bool
  | .str s => strLower (strStrip s) = "yes" || strLower (strStrip s) = "no"
  | _ => false

theorem isYesNoCell_elim {x : Cell} (h : isYesNoCell x = true) :
    ∃ s, x = Cell.str s ∧
      (strLower (strStrip s) = "yes" ∨ strLower (strStrip s) = "no") := by
  cases x with
  | str s =>
    refine ⟨s, rfl, ?_⟩
    simp only [isYesNoCell, Bool.or_eq_true, decide_eq_true_eq] at h
    exact h
  | int n => simp [isYesNoCell] at h
  | float q => simp [isYesNoCell] at h
  | bool b => simp [isYesNoCell] at h
  | na => simp [isYesNoCell] at h

/-- Claim C1 (corrected, counterexample): `preprocess_data` can return
without raising while the target column still has a missing entry — an
unmapped target value is only logged as a warning, becomes `NaN`, and
an all-missing target column stays missing (the median of no values
fills nothing). -/
theorem preprocess_target_not_binary_cex :
    preprocess_data ⟨[⟨"Churn", .object, [.str "maybe"]⟩]⟩ "Churn" =
      .ok ⟨[⟨"Churn", .float64, [.na]⟩]⟩ ∧ Cell.na ≠ Cell.int 0 ∧ Cell.na ≠ Cell.int 1 := by
  exact ⟨by decide, by decide, by decide⟩

/-- Claim C1 (amended): if every entry of the (text-typed) target
column strips and lower-cases to "yes" or "no", then whenever
`preprocess_data` returns without raising, the returned target column
contains only the integers 0 and 1 (in particular no missing
entries). -/
theorem preprocess_target_binary (df : Table) (target : String) (t : Table)
    (hsc : target ≠ "SeniorCitizen")
    (hcols : ∀ c ∈ df.cols, strStrip c.name = target →
       c.dtype = Dtype.object ∧ ∀ x ∈ c.cells, isYesNoCell x = true)
    (hok : preprocess_data df target = .ok t) :
    ∀ c ∈ t.cols, c.name = target →
      c.dtype = Dtype.int64 ∧ ∀ x ∈ c.cells, x = Cell.int 0 ∨ x = Cell.int 1 := by
  classical
  -- the invariant we push through the pipeline
  let P : Table → Prop := fun u => ∀ c ∈ u.cols, c.name = target →
    c.dtype = Dtype.int64 ∧ ∀ x ∈ c.cells, x = Cell.int 0 ∨ x = Cell.int 1
  -- mapping the target column produces an all-0/1 int64 column
  have hmapGood : ∀ c : Col, c.dtype = Dtype.object →
      (∀ x ∈ c.cells, isYesNoCell x = true) →
      (mapTargetCol c).dtype = Dtype.int64 ∧
        ∀ x ∈ (mapTargetCol c).cells, x = Cell.int 0 ∨ x = Cell.int 1 := by
    intro c hdt hcells
    rw [mapTargetCol, if_pos hdt]
    simp only
    have hall : (c.cells.map (fun c => match c with
        | Cell.str s =>
            if strLower (strStrip s) = "no" then some (0 : Int)
            else if strLower (strStrip s) = "yes" then some 1 else none
        | _ => none)).all Option.isSome = true := by
      rw [List.all_eq_true]
      intro o ho
      rw [List.mem_map] at ho
      obtain ⟨x, hx, rfl⟩ := ho
      obtain ⟨s, rfl, hs⟩ := isYesNoCell_elim (hcells x hx)
      rcases hs with h | h <;> simp [h]
    rw [if_pos hall]
    refine ⟨rfl, ?_⟩
    intro x hx
    rw [List.mem_map] at hx
    obtain ⟨o, ho, rfl⟩ := hx
    rw [List.mem_map] at ho
    obtain ⟨y, hy, rfl⟩ := ho
    obtain ⟨s, rfl, hs⟩ := isYesNoCell_elim (hcells y hy)
    rcases hs with h | h <;> simp [h]
  -- after strip + drop + target map the invariant holds
  have h3 : P (mapTargetStep (dropIdsStep (stripHeadersStep df)) target) := by
    intro c hc hname
    rw [mapTargetStep, updateCol] at hc
    simp only [List.mem_map] at hc
    obtain ⟨c0, hc0, rfl⟩ := hc
    rw [dropIdsStep] at hc0
    simp only [List.mem_filter] at hc0
    obtain ⟨hc0s, _⟩ := hc0
    rw [stripHeadersStep] at hc0s
    simp only [List.mem_map] at hc0s
    obtain ⟨c1, hc1, rfl⟩ := hc0s
    by_cases hn : strStrip c1.name = target
    · rw [if_pos hn] at hname ⊢
      obtain ⟨hdt, hcells⟩ := hcols c1 hc1 hn
      exact hmapGood _ hdt hcells
    · rw [if_neg hn] at hname
      exact absurd hname hn
  -- TotalCharges coercion preserves it
  have h4 : P (totalChargesStep (mapTargetStep (dropIdsStep (stripHeadersStep df)) target)) := by
    intro c hc hname
    rw [totalChargesStep, updateCol] at hc
    simp only [List.mem_map] at hc
    obtain ⟨c0, hc0, rfl⟩ := hc
    by_cases hn : c0.name = "TotalCharges"
    · rw [if_pos hn] at hname ⊢
      rw [toNumericCol_name] at hname
      obtain ⟨hdt, hcells⟩ := h3 c0 hc0 hname
      rw [toNumericCol_zero_one c0 hdt hcells]
      exact ⟨hdt, hcells⟩
    · rw [if_neg hn] at hname ⊢
      exact h3 c0 hc0 hname
  -- unfold the Except pipeline
  rw [preprocess_data] at hok
  cases h5 : seniorStep (totalChargesStep (mapTargetStep (dropIdsStep
      (stripHeadersStep df)) target)) with
  | error e => rw [h5] at hok; exact absurd hok (by simp)
  | ok t5 =>
    rw [h5] at hok
    dsimp only at hok
    have h5P : P t5 := by
      intro c hc hname
      rw [seniorStep] at h5
      cases hcols5 : exMap seniorCol
          (totalChargesStep (mapTargetStep (dropIdsStep (stripHeadersStep df)) target)).cols with
      | error e => rw [hcols5] at h5; exact absurd h5 (by simp)
      | ok cols5 =>
        rw [hcols5] at h5
        simp only [Except.ok.injEq] at h5
        have hcmem : c ∈ cols5 := by rw [← h5] at hc; exact hc
        obtain ⟨x, hx, hfx⟩ := exMap_ok_mem hcols5 c hcmem
        rw [seniorCol] at hfx
        by_cases hxn : x.name = "SeniorCitizen"
        · rw [if_pos hxn] at hfx
          cases hvals : exMap cellFillnaZeroToInt x.cells with
          | error e => rw [hvals] at hfx; exact absurd hfx (by simp)
          | ok vals =>
            rw [hvals] at hfx
            simp only [Except.ok.injEq] at hfx
            have hcn : c.name = x.name := by rw [← hfx]
            rw [hcn, hxn] at hname
            exact absurd hname.symm hsc
        · rw [if_neg hxn] at hfx
          simp only [Except.ok.injEq] at hfx
          subst hfx
          exact h4 x hx hname
    cases h6 : medianStep t5 with
    | error e => rw [h6] at hok; exact absurd hok (by simp)
    | ok t6 =>
      rw [h6] at hok
      dsimp only at hok
      have h6P : P t6 := by
        intro c hc hname
        rw [medianStep] at h6
        cases hcols6 : exMap (fun c => if isNumericDtype c.dtype then fillMedianCol c
            else .ok c) t5.cols with
        | error e => rw [hcols6] at h6; exact absurd h6 (by simp)
        | ok cols6 =>
          rw [hcols6] at h6
          simp only [Except.ok.injEq] at h6
          have hcmem : c ∈ cols6 := by rw [← h6] at hc; exact hc
          obtain ⟨x, hx, hfx⟩ := exMap_ok_mem hcols6 c hcmem
          by_cases hnum : isNumericDtype x.dtype = true
          · rw [if_pos hnum] at hfx
            -- the target column has no missing entries, so the median
            -- fill leaves it alone
            by_cases hxn : x.name = target
            · obtain ⟨hdt, hcells⟩ := h5P x hx hxn
              have hnona : x.cells.any (fun c => decide (c = Cell.na)) = false := by
                rw [List.any_eq_false]
                intro y hy
                rcases hcells y hy with rfl | rfl <;> decide
              rw [fillMedianCol, if_neg (by rw [hnona]; exact Bool.false_ne_true)] at hfx
              cases hfx
              exact ⟨hdt, hcells⟩
            · -- a non-target column: whatever fillMedianCol returns,
              -- its name is x.name ≠ target
              have hcn : c.name = x.name := by
                rw [fillMedianCol] at hfx
                split at hfx
                · split at hfx
                  · cases hfx; rfl
                  · split at hfx
                    · cases hfx; rfl
                    · split at hfx
                      · cases hfx; rfl
                      · exact absurd hfx (by simp)
                    · cases hfx; rfl
                · cases hfx; rfl
              rw [hcn] at hname
              exact absurd hname hxn
          · rw [if_neg hnum] at hfx
            simp only [Except.ok.injEq] at hfx
            subst hfx
            exact h5P x hx hname
      by_cases hemp : tableEmpty t6 = true
      · rw [if_pos hemp] at hok
        exact absurd hok (by simp)
      · rw [if_neg hemp] at hok
        simp only [Except.ok.injEq] at hok
        subst hok
        exact h6P

/-- Witness for the amended C1 at a concrete table whose target values
all map. -/
theorem preprocess_target_binary_witness :
    ("Churn" : String) ≠ "SeniorCitizen" ∧
    preprocess_data ⟨[⟨" Churn", .object, [.str "Yes", .str " no "]⟩]⟩ "Churn" =
      .ok ⟨[⟨"Churn", .int64, [.int 1, .int 0]⟩]⟩ ∧
    (∀ c ∈ (Table.mk [⟨"Churn", .int64, [.int 1, .int 0]⟩]).cols, c.name = "Churn" →
      c.dtype = Dtype.int64 ∧ ∀ x ∈ c.cells, x = Cell.int 0 ∨ x = Cell.int 1) :=
  ⟨by decide, by decide,
    preprocess_target_binary ⟨[⟨" Churn", .object, [.str "Yes", .str " no "]⟩]⟩ "Churn"
      ⟨[⟨"Churn", .int64, [.int 1, .int 0]⟩]⟩ (by decide) (by decide) (by decide)⟩

/-- Counting one tag among the failed entries of a tagged check list. -/
theorem count_failed (l : List (String × Bool)) (s : String) :
    ((l.filter (fun r => !r.2)).map (fun r => r.1)).count s =
      (l.filter (fun r => decide (r.1 = s) && !r.2)).length := by
  induction l with
  | nil => rfl
  | cons a as ih =>
    by_cases h2 : a.2 = true
    · simp [List.filter_cons, h2, ih]
    · rw [Bool.not_eq_true] at h2
      by_cases h1 : a.1 = s
      · simp [List.filter_cons, h2, h1, List.count_cons, ih]
      · simp [List.filter_cons, h2, h1, List.count_cons, ih]

/-- Passing and failing checks partition a tagged check list. -/
theorem countP_not_split (l : List (String × Bool)) :
    l.countP (fun r => r.2) + l.countP (fun r => !r.2) = l.length := by
  induction l with
  | nil => rfl
  | cons a as ih =>
    by_cases h : a.2 = true <;> simp [List.countP_cons, h, ← ih] <;> omega

/-- A table with all required columns takes the full-validation branch. -/
theorem required_filter_empty (df : Table)
    (hreq : ∀ r ∈ required_cols, (findCol df r).isSome) :
    (required_cols.filter (fun c => (findCol df c).isNone)).isEmpty = true := by
  rw [List.isEmpty_iff, List.filter_eq_nil_iff]
  intro r hr
  have h2 := hreq r hr
  cases hfc : findCol df r with
  | none => rw [hfc] at h2; exact absurd h2 (by simp)
  | some c => simp

/-- Claim C8: with all required columns present, the validator runs
exactly 13 checks, reports passed/failed counts against that constant,
appends exactly one identifier per failed check, and succeeds exactly
when the failure list is empty. -/
theorem validate_thirteen_checks (df : Table)
    (hreq : ∀ r ∈ required_cols, (findCol df r).isSome) :
    (validate_telco_data df).total_checks = 13 ∧
    (validate_telco_data df).passed_checks + (validate_telco_data df).failed_checks = 13 ∧
    (validate_telco_data df).failed_expectations.length =
      (validate_telco_data df).failed_checks ∧
    ((validate_telco_data df).success = true ↔
      (validate_telco_data df).failed_expectations = []) := by
  rw [validate_telco_data, if_pos (required_filter_empty df hreq)]
  dsimp only
  have hsplit : (geChecks df).countP (fun r => r.2) +
      (geChecks df).countP (fun r => !r.2) = 13 :=
    countP_not_split (geChecks df)
  refine ⟨rfl, ?_, ?_, ?_⟩
  · exact Nat.add_sub_cancel' (List.countP_le_length _)
  · show (((geChecks df).filter (fun r => !r.2)).map (fun r => r.1)).length =
      (geChecks df).length - (geChecks df).countP (fun r => r.2)
    rw [List.length_map, ← List.countP_eq_length_filter]
    have hlen : (geChecks df).length = 13 := rfl
    omega
  · show (geChecks df).all (fun r => r.2) = true ↔
      ((geChecks df).filter (fun r => !r.2)).map (fun r => r.1) = []
    rw [List.map_eq_nil, List.filter_eq_nil_iff, List.all_eq_true]
    constructor
    · intro h r hr
      simp [h r hr]
    · intro h r hr
      have h3 := h r hr
      simp at h3
      exact h3

/-- Witness for C8 on a concrete table passing every check. -/
theorem validate_thirteen_checks_witness :
    (∀ r ∈ required_cols, (findCol ⟨[⟨"customerID", .object, [.str "a"]⟩,
      ⟨"gender", .object, [.str "Male"]⟩, ⟨"Partner", .object, [.str "Yes"]⟩,
      ⟨"Dependents", .object, [.str "No"]⟩, ⟨"PhoneService", .object, [.str "Yes"]⟩,
      ⟨"InternetService", .object, [.str "DSL"]⟩, ⟨"Contract", .object, [.str "One year"]⟩,
      ⟨"tenure", .int64, [.int 12]⟩, ⟨"MonthlyCharges", .float64, [.float 50]⟩,
      ⟨"TotalCharges", .object, [.str "600.5"]⟩]⟩ r).isSome) ∧
    ((validate_telco_data ⟨[⟨"customerID", .object, [.str "a"]⟩,
      ⟨"gender", .object, [.str "Male"]⟩, ⟨"Partner", .object, [.str "Yes"]⟩,
      ⟨"Dependents", .object, [.str "No"]⟩, ⟨"PhoneService", .object, [.str "Yes"]⟩,
      ⟨"InternetService", .object, [.str "DSL"]⟩, ⟨"Contract", .object, [.str "One year"]⟩,
      ⟨"tenure", .int64, [.int 12]⟩, ⟨"MonthlyCharges", .float64, [.float 50]⟩,
      ⟨"TotalCharges", .object, [.str "600.5"]⟩]⟩).total_checks = 13 ∧
     (validate_telco_data ⟨[⟨"customerID", .object, [.str "a"]⟩,
      ⟨"gender", .object, [.str "Male"]⟩, ⟨"Partner", .object, [.str "Yes"]⟩,
      ⟨"Dependents", .object, [.str "No"]⟩, ⟨"PhoneService", .object, [.str "Yes"]⟩,
      ⟨"InternetService", .object, [.str "DSL"]⟩, ⟨"Contract", .object, [.str "One year"]⟩,
      ⟨"tenure", .int64, [.int 12]⟩, ⟨"MonthlyCharges", .float64, [.float 50]⟩,
      ⟨"TotalCharges", .object, [.str "600.5"]⟩]⟩).passed_checks +
     (validate_telco_data ⟨[⟨"customerID", .object, [.str "a"]⟩,
      ⟨"gender", .object, [.str "Male"]⟩, ⟨"Partner", .object, [.str "Yes"]⟩,
      ⟨"Dependents", .object, [.str "No"]⟩, ⟨"PhoneService", .object, [.str "Yes"]⟩,
      ⟨"InternetService", .object, [.str "DSL"]⟩, ⟨"Contract", .object, [.str "One year"]⟩,
      ⟨"tenure", .int64, [.int 12]⟩, ⟨"MonthlyCharges", .float64, [.float 50]⟩,
      ⟨"TotalCharges", .object, [.str "600.5"]⟩]⟩).failed_checks = 13 ∧
     (validate_telco_data ⟨[⟨"customerID", .object, [.str "a"]⟩,
      ⟨"gender", .object, [.str "Male"]⟩, ⟨"Partner", .object, [.str "Yes"]⟩,
      ⟨"Dependents", .object, [.str "No"]⟩, ⟨"PhoneService", .object, [.str "Yes"]⟩,
      ⟨"InternetService", .object, [.str "DSL"]⟩, ⟨"Contract", .object, [.str "One year"]⟩,
      ⟨"tenure", .int64, [.int 12]⟩, ⟨"MonthlyCharges", .float64, [.float 50]⟩,
      ⟨"TotalCharges", .object, [.str "600.5"]⟩]⟩).failed_expectations.length =
     (validate_telco_data ⟨[⟨"customerID", .object, [.str "a"]⟩,
      ⟨"gender", .object, [.str "Male"]⟩, ⟨"Partner", .object, [.str "Yes"]⟩,
      ⟨"Dependents", .object, [.str "No"]⟩, ⟨"PhoneService", .object, [.str "Yes"]⟩,
      ⟨"InternetService", .object, [.str "DSL"]⟩, ⟨"Contract", .object, [.str "One year"]⟩,
      ⟨"tenure", .int64, [.int 12]⟩, ⟨"MonthlyCharges", .float64, [.float 50]⟩,
      ⟨"TotalCharges", .object, [.str "600.5"]⟩]⟩).failed_checks ∧
     ((validate_telco_data ⟨[⟨"customerID", .object, [.str "a"]⟩,
      ⟨"gender", .object, [.str "Male"]⟩, ⟨"Partner", .object, [.str "Yes"]⟩,
      ⟨"Dependents", .object, [.str "No"]⟩, ⟨"PhoneService", .object, [.str "Yes"]⟩,
      ⟨"InternetService", .object, [.str "DSL"]⟩, ⟨"Contract", .object, [.str "One year"]⟩,
      ⟨"tenure", .int64, [.int 12]⟩, ⟨"MonthlyCharges", .float64, [.float 50]⟩,
      ⟨"TotalCharges", .object, [.str "600.5"]⟩]⟩).success = true ↔
      (validate_telco_data ⟨[⟨"customerID", .object, [.str "a"]⟩,
      ⟨"gender", .object, [.str "Male"]⟩, ⟨"Partner", .object, [.str "Yes"]⟩,
      ⟨"Dependents", .object, [.str "No"]⟩, ⟨"PhoneService", .object, [.str "Yes"]⟩,
      ⟨"InternetService", .object, [.str "DSL"]⟩, ⟨"Contract", .object, [.str "One year"]⟩,
      ⟨"tenure", .int64, [.int 12]⟩, ⟨"MonthlyCharges", .float64, [.float 50]⟩,
      ⟨"TotalCharges", .object, [.str "600.5"]⟩]⟩).failed_expectations = [])) :=
  ⟨by decide,
    validate_thirteen_checks ⟨[⟨"customerID", .object, [.str "a"]⟩,
      ⟨"gender", .object, [.str "Male"]⟩, ⟨"Partner", .object, [.str "Yes"]⟩,
      ⟨"Dependents", .object, [.str "No"]⟩, ⟨"PhoneService", .object, [.str "Yes"]⟩,
      ⟨"InternetService", .object, [.str "DSL"]⟩, ⟨"Contract", .object, [.str "One year"]⟩,
      ⟨"tenure", .int64, [.int 12]⟩, ⟨"MonthlyCharges", .float64, [.float 50]⟩,
      ⟨"TotalCharges", .object, [.str "600.5"]⟩]⟩ (by decide)⟩

/-- Claim C7: with all required columns present, the
TotalCharges-vs-MonthlyCharges consistency check passes exactly when at
least 95% of the rows with a present coerced TotalCharges value satisfy
TotalCharges ≥ MonthlyCharges, and a failure contributes exactly one
identifier to the failure list (never one per violating row). -/
theorem validate_consistency_mostly (df : Table)
    (hreq : ∀ r ∈ required_cols, (findCol df r).isSome) :
    (checkPairMostly df = true ↔
      (pairPresent df = 0 ∨
        (19 : ℚ) / 20 ≤ (pairSat df : ℚ) / (pairPresent df : ℚ))) ∧
    (validate_telco_data df).failed_expectations.count
        "expect_column_pair_values_A_to_be_greater_than_B" =
      (if checkPairMostly df then 0 else 1) := by
  constructor
  · rw [checkPairMostly, decide_eq_true_eq]
    constructor
    · intro h
      by_cases hz : pairPresent df = 0
      · exact Or.inl hz
      · refine Or.inr ?_
        have hpos : (0 : ℚ) < (pairPresent df : ℚ) := by
          exact_mod_cast Nat.pos_of_ne_zero hz
        rw [div_le_div_iff (by norm_num) hpos]
        have hq : ((19 * pairPresent df : ℕ) : ℚ) ≤ ((20 * pairSat df : ℕ) : ℚ) := by
          exact_mod_cast h
        push_cast at hq
        linarith
    · intro h
      rcases h with hz | hle
      · rw [hz]
        exact Nat.le_of_lt_succ (by omega)
      · by_cases hz : pairPresent df = 0
        · rw [hz]; omega
        · have hpos : (0 : ℚ) < (pairPresent df : ℚ) := by
            exact_mod_cast Nat.pos_of_ne_zero hz
          rw [div_le_div_iff (by norm_num) hpos] at hle
          have hle2 : ((19 * pairPresent df : ℕ) : ℚ) ≤ ((20 * pairSat df : ℕ) : ℚ) := by
            push_cast
            linarith
          exact_mod_cast hle2
  · rw [validate_telco_data, if_pos (required_filter_empty df hreq)]
    dsimp only
    rw [count_failed]
    cases hcp : checkPairMostly df <;>
      simp [geChecks, List.filter_cons, hcp]

/-- Witness for C7 on a concrete table (one row, 600.5 ≥ 50, ratio 1 ≥
0.95, so the check passes and contributes no identifier). -/
theorem validate_consistency_mostly_witness :
    (∀ r ∈ required_cols, (findCol ⟨[⟨"customerID", .object, [.str "a"]⟩,
      ⟨"gender", .object, [.str "Male"]⟩, ⟨"Partner", .object, [.str "Yes"]⟩,
      ⟨"Dependents", .object, [.str "No"]⟩, ⟨"PhoneService", .object, [.str "Yes"]⟩,
      ⟨"InternetService", .object, [.str "DSL"]⟩, ⟨"Contract", .object, [.str "One year"]⟩,
      ⟨"tenure", .int64, [.int 12]⟩, ⟨"MonthlyCharges", .float64, [.float 50]⟩,
      ⟨"TotalCharges", .object, [.str "600.5"]⟩]⟩ r).isSome) ∧
    ((checkPairMostly ⟨[⟨"customerID", .object, [.str "a"]⟩,
      ⟨"gender", .object, [.str "Male"]⟩, ⟨"Partner", .object, [.str "Yes"]⟩,
      ⟨"Dependents", .object, [.str "No"]⟩, ⟨"PhoneService", .object, [.str "Yes"]⟩,
      ⟨"InternetService", .object, [.str "DSL"]⟩, ⟨"Contract", .object, [.str "One year"]⟩,
      ⟨"tenure", .int64, [.int 12]⟩, ⟨"MonthlyCharges", .float64, [.float 50]⟩,
      ⟨"TotalCharges", .object, [.str "600.5"]⟩]⟩ = true ↔
      (pairPresent ⟨[⟨"customerID", .object, [.str "a"]⟩,
      ⟨"gender", .object, [.str "Male"]⟩, ⟨"Partner", .object, [.str "Yes"]⟩,
      ⟨"Dependents", .object, [.str "No"]⟩, ⟨"PhoneService", .object, [.str "Yes"]⟩,
      ⟨"InternetService", .object, [.str "DSL"]⟩, ⟨"Contract", .object, [.str "One year"]⟩,
      ⟨"tenure", .int64, [.int 12]⟩, ⟨"MonthlyCharges", .float64, [.float 50]⟩,
      ⟨"TotalCharges", .object, [.str "600.5"]⟩]⟩ = 0 ∨
        (19 : ℚ) / 20 ≤ ((pairSat ⟨[⟨"customerID", .object, [.str "a"]⟩,
      ⟨"gender", .object, [.str "Male"]⟩, ⟨"Partner", .object, [.str "Yes"]⟩,
      ⟨"Dependents", .object, [.str "No"]⟩, ⟨"PhoneService", .object, [.str "Yes"]⟩,
      ⟨"InternetService", .object, [.str "DSL"]⟩, ⟨"Contract", .object, [.str "One year"]⟩,
      ⟨"tenure", .int64, [.int 12]⟩, ⟨"MonthlyCharges", .float64, [.float 50]⟩,
      ⟨"TotalCharges", .object, [.str "600.5"]⟩]⟩ : ℚ)) /
          ((pairPresent ⟨[⟨"customerID", .object, [.str "a"]⟩,
      ⟨"gender", .object, [.str "Male"]⟩, ⟨"Partner", .object, [.str "Yes"]⟩,
      ⟨"Dependents", .object, [.str "No"]⟩, ⟨"PhoneService", .object, [.str "Yes"]⟩,
      ⟨"InternetService", .object, [.str "DSL"]⟩, ⟨"Contract", .object, [.str "One year"]⟩,
      ⟨"tenure", .int64, [.int 12]⟩, ⟨"MonthlyCharges", .float64, [.float 50]⟩,
      ⟨"TotalCharges", .object, [.str "600.5"]⟩]⟩ : ℚ)))) ∧
    (validate_telco_data ⟨[⟨"customerID", .object, [.str "a"]⟩,
      ⟨"gender", .object, [.str "Male"]⟩, ⟨"Partner", .object, [.str "Yes"]⟩,
      ⟨"Dependents", .object, [.str "No"]⟩, ⟨"PhoneService", .object, [.str "Yes"]⟩,
      ⟨"InternetService", .object, [.str "DSL"]⟩, ⟨"Contract", .object, [.str "One year"]⟩,
      ⟨"tenure", .int64, [.int 12]⟩, ⟨"MonthlyCharges", .float64, [.float 50]⟩,
      ⟨"TotalCharges", .object, [.str "600.5"]⟩]⟩).failed_expectations.count
        "expect_column_pair_values_A_to_be_greater_than_B" =
      (if checkPairMostly ⟨[⟨"customerID", .object, [.str "a"]⟩,
      ⟨"gender", .object, [.str "Male"]⟩, ⟨"Partner", .object, [.str "Yes"]⟩,
      ⟨"Dependents", .object, [.str "No"]⟩, ⟨"PhoneService", .object, [.str "Yes"]⟩,
      ⟨"InternetService", .object, [.str "DSL"]⟩, ⟨"Contract", .object, [.str "One year"]⟩,
      ⟨"tenure", .int64, [.int 12]⟩, ⟨"MonthlyCharges", .float64, [.float 50]⟩,
      ⟨"TotalCharges", .object, [.str "600.5"]⟩]⟩ then 0 else 1)) :=
  ⟨by decide,
    validate_consistency_mostly ⟨[⟨"customerID", .object, [.str "a"]⟩,
      ⟨"gender", .object, [.str "Male"]⟩, ⟨"Partner", .object, [.str "Yes"]⟩,
      ⟨"Dependents", .object, [.str "No"]⟩, ⟨"PhoneService", .object, [.str "Yes"]⟩,
      ⟨"InternetService", .object, [.str "DSL"]⟩, ⟨"Contract", .object, [.str "One year"]⟩,
      ⟨"tenure", .int64, [.int 12]⟩, ⟨"MonthlyCharges", .float64, [.float 50]⟩,
      ⟨"TotalCharges", .object, [.str "600.5"]⟩]⟩ (by decide)⟩

/-- The lexicographically smaller of two strings (Python `sorted`
order). -/
def strMin (a b : String) : String :=
  if strLe a b then a else b

/-- The lexicographically larger of two strings. -/
def strMax (a b : String) : String :=
  if strLe a b then b else a

theorem char_toNat_inj {c d : Char} (h : c.toNat = d.toNat) : c = d := by
  have hv : c.val = d.val := by
    simp only [Char.toNat] at h
    exact UInt32.toNat.inj h
  exact Char.eq_of_val_eq hv

/-- On distinct lists the lexicographic order is strict: exactly one
direction holds. -/
theorem lexLe_asymm_total : ∀ cs ds : List Char, cs ≠ ds →
    (lexLe cs ds = true ↔ lexLe ds cs = false)
  | [], [] => fun h => absurd rfl h
  | [], _ :: _ => fun _ => by simp [lexLe]
  | _ :: _, [] => fun _ => by simp [lexLe]
  | c :: cs, d :: ds => fun h => by
    by_cases hcd : c = d
    · subst hcd
      have hne : cs ≠ ds := fun hh => h (by rw [hh])
      simp only [lexLe, if_pos rfl]
      exact lexLe_asymm_total cs ds hne
    · have hnat : c.toNat ≠ d.toNat := fun hh => hcd (char_toNat_inj hh)
      have hdc : ¬(d = c) := fun hh => hcd hh.symm
      simp only [lexLe, if_neg hcd, if_neg hdc, decide_eq_true_eq,
        decide_eq_false_iff_not]
      omega

/-- On distinct strings `strLe` holds in exactly one direction. -/
theorem strLe_asymm_total {a b : String} (hab : a ≠ b) :
    strLe a b = true ↔ strLe b a = false := by
  have hd : a.data ≠ b.data := by
    intro hd
    exact hab (by cases a; cases b; simp_all)
  exact lexLe_asymm_total a.data b.data hd

/-- `strMin` and `strMax` of distinct strings are distinct. -/
theorem strMin_ne_strMax {a b : String} (hab : a ≠ b) :
    strMin a b ≠ strMax a b := by
  rw [strMin, strMax]
  by_cases h : strLe a b = true
  · rw [if_pos h, if_pos h]; exact hab
  · rw [if_neg h, if_neg h]; exact hab.symm

/-- Sorting a two-element list (in either input order) puts the
lexicographically smaller string first. -/
theorem insertionSort_pair (a b : String) (hab : a ≠ b) :
    List.insertionSort (fun x y => strLe x y = true) [a, b] = [strMin a b, strMax a b] ∧
    List.insertionSort (fun x y => strLe x y = true) [b, a] = [strMin a b, strMax a b] := by
  constructor
  · show List.orderedInsert _ a [b] = _
    by_cases h : strLe a b = true
    · simp [List.orderedInsert, strMin, strMax, h]
    · simp [List.orderedInsert, strMin, strMax, h]
  · show List.orderedInsert _ b [a] = _
    by_cases h : strLe a b = true
    · have hba : strLe b a = false := (strLe_asymm_total hab).mp h
      simp [List.orderedInsert, strMin, strMax, h, hba]
    · have hba : strLe b a = true :=
        (strLe_asymm_total hab.symm).mpr (by rwa [Bool.not_eq_true] at h)
      simp [List.orderedInsert, strMin, strMax, h, hba]

/-- A nodup list whose element set is an unordered pair is one of the
two orderings of that pair. -/
theorem nodup_pair_list {l : List String} {a b : String} (hnd : l.Nodup)
    (hab : a ≠ b) (hset : l.toFinset = {a, b}) : l = [a, b] ∨ l = [b, a] := by
  have hlen : l.length = 2 := by
    rw [← List.toFinset_card_of_nodup hnd, hset]
    exact Finset.card_pair hab
  match l, hlen with
  | [x, y], _ =>
    have hxy : x ≠ y := by
      simp only [List.nodup_cons, List.mem_singleton] at hnd
      exact hnd.1
    have hx : x ∈ ({a, b} : Finset String) := by
      rw [← hset]; simp
    have hy : y ∈ ({a, b} : Finset String) := by
      rw [← hset]; simp
    simp only [Finset.mem_insert, Finset.mem_singleton] at hx hy
    rcases hx with rfl | rfl
    · rcases hy with rfl | rfl
      · exact absurd rfl hxy
      · exact Or.inl rfl
    · rcases hy with rfl | rfl
      · exact Or.inr rfl
      · exact absurd rfl hxy

/-- A cell of a text column: a string or a missing value. -/
def isTextCell : Cell → Bool
  | .str _ => true
  | .na => true
  | _ => false

theorem isTextCell_elim {x : Cell} (h : isTextCell x = true) :
    (∃ v, x = Cell.str v) ∨ x = Cell.na := by
  cases x with
  | str v => exact Or.inl ⟨v, rfl⟩
  | na => exact Or.inr rfl
  | int n => simp [isTextCell] at h
  | float q => simp [isTextCell] at h
  | bool b => simp [isTextCell] at h

/-- Under the text-column assumption every distinct observed cell is a
string cell. -/
theorem uniqueCells_str {l : List Cell}
    (htext : ∀ x ∈ l, (∃ v, x = Cell.str v) ∨ x = Cell.na) :
    ∀ x ∈ uniqueCells l, ∃ v, x = Cell.str v := by
  intro x hx
  rw [uniqueCells, List.mem_dedup, dropna, List.mem_filter] at hx
  obtain ⟨hmem, hne⟩ := hx
  rcases htext x hmem with h | rfl
  · exact h
  · simp at hne

/-- The stringified distinct observed values of a text column form a
nodup list. -/
theorem vals_nodup {l : List Cell}
    (htext : ∀ x ∈ l, (∃ v, x = Cell.str v) ∨ x = Cell.na) :
    ((uniqueCells l).map cellStr).Nodup := by
  apply List.Nodup.map_on
  · intro x hx y hy hxy
    obtain ⟨v, rfl⟩ := uniqueCells_str htext x hx
    obtain ⟨w, rfl⟩ := uniqueCells_str htext y hy
    simp only [cellStr] at hxy
    rw [hxy]
  · exact List.nodup_dedup _

/-- Claim C4: for a series with exactly two distinct non-missing
(string) values {a, b}, `_map_binary_series` is deterministic and
prioritised: the set {"Yes","No"} maps No to 0 and Yes to 1, the set
{"Male","Female"} maps Female to 0 and Male to 1, and any other pair
maps the lexicographically smaller value to 0 and the larger to 1 —
independent of row order or value frequency, since the encoding is a
per-cell function of the value alone. -/
theorem map_binary_series_deterministic (s : Series) (a b : String)
    (hab : a ≠ b)
    (htext : ∀ x ∈ s.cells, isTextCell x = true)
    (hvals : ((uniqueCells s.cells).map cellStr).toFinset = {a, b}) :
    (({a, b} : Finset String) = {"Yes", "No"} →
      _map_binary_series s = ⟨.nullableInt64, s.cells.map (fun x =>
        match x with
        | Cell.str "No" => Cell.int 0
        | Cell.str "Yes" => Cell.int 1
        | _ => Cell.na)⟩) ∧
    (({a, b} : Finset String) = {"Male", "Female"} →
      _map_binary_series s = ⟨.nullableInt64, s.cells.map (fun x =>
        match x with
        | Cell.str "Female" => Cell.int 0
        | Cell.str "Male" => Cell.int 1
        | _ => Cell.na)⟩) ∧
    (({a, b} : Finset String) ≠ {"Yes", "No"} →
      ({a, b} : Finset String) ≠ {"Male", "Female"} →
      _map_binary_series s = ⟨.nullableInt64, s.cells.map (fun x =>
        if cellStr x = strMin a b then Cell.int 0
        else if cellStr x = strMax a b then Cell.int 1
        else Cell.na)⟩) := by
  have htext2 : ∀ x ∈ s.cells, (∃ v, x = Cell.str v) ∨ x = Cell.na :=
    fun x hx => isTextCell_elim (htext x hx)
  have hnd : ((uniqueCells s.cells).map cellStr).Nodup := vals_nodup htext2
  refine ⟨?_, ?_, ?_⟩
  · intro h1
    rw [_map_binary_series, hvals, if_pos h1]
  · intro h2
    have h1 : ((uniqueCells s.cells).map cellStr).toFinset ≠ {"Yes", "No"} := by
      rw [hvals, h2]
      decide
    rw [_map_binary_series, if_neg (by rw [hvals] at h1 ⊢; exact h1), hvals, if_pos h2]
  · intro h1 h2
    have hpair := nodup_pair_list hnd hab hvals
    have hlen : ((uniqueCells s.cells).map cellStr).length = 2 := by
      rcases hpair with h | h <;> rw [h] <;> rfl
    rw [_map_binary_series, hvals, if_neg h1, if_neg h2, if_pos hlen]
    have hsv : List.insertionSort (fun x y => strLe x y = true)
        ((uniqueCells s.cells).map cellStr) = [strMin a b, strMax a b] := by
      rcases hpair with h | h <;> rw [h]
      · exact (insertionSort_pair a b hab).1
      · exact (insertionSort_pair a b hab).2
    rw [hsv]
    simp only [Series.mk.injEq, true_and]
    apply List.map_congr_left
    intro x _
    simp only [List.getD_cons_succ, List.getD_cons_zero]
    have hMm : strMax a b ≠ strMin a b := (strMin_ne_strMax hab).symm
    by_cases hM : cellStr x = strMax a b <;> by_cases hm : cellStr x = strMin a b
    · exact absurd (hm.symm.trans hM) (strMin_ne_strMax hab)
    · simp [hM, hm, hMm]
    · simp [hM, hm, hMm, strMin_ne_strMax hab]
    · simp [hM, hm, hMm]

/-- Witness for C4 on a concrete two-valued series with a missing
entry (generic branch, "DSL" vs "Fiber"). -/
theorem map_binary_series_deterministic_witness :
    (("DSL" : String) ≠ "Fiber" ∧
     (∀ x ∈ (Series.mk Dtype.object [.str "Fiber", .na, .str "DSL"]).cells,
       isTextCell x = true) ∧
     ((uniqueCells (Series.mk Dtype.object [.str "Fiber", .na, .str "DSL"]).cells).map
       cellStr).toFinset = {"DSL", "Fiber"}) ∧
    ((({"DSL", "Fiber"} : Finset String) ≠ {"Yes", "No"}) ∧
     (({"DSL", "Fiber"} : Finset String) ≠ {"Male", "Female"}) ∧
     _map_binary_series (Series.mk Dtype.object [.str "Fiber", .na, .str "DSL"]) =
       ⟨.nullableInt64, [.str "Fiber", .na, .str "DSL"].map (fun x =>
         if cellStr x = strMin "DSL" "Fiber" then Cell.int 0
         else if cellStr x = strMax "DSL" "Fiber" then Cell.int 1
         else Cell.na)⟩) :=
  ⟨⟨by decide, by decide, by decide⟩,
    ⟨by decide, by decide,
      (map_binary_series_deterministic
        (Series.mk Dtype.object [.str "Fiber", .na, .str "DSL"]) "DSL" "Fiber"
        (by decide) (by decide) (by decide)).2.2 (by decide) (by decide)⟩⟩

/-- In a text column (strings and missing only), the non-missing cells
are exactly the string cells. -/
theorem dropna_eq_map_nonNullStrs {l : List Cell}
    (htext : ∀ x ∈ l, isTextCell x = true) :
    dropna l = (nonNullStrs l).map Cell.str := by
  induction l with
  | nil => rfl
  | cons a as ih =>
    have hih := ih (fun x hx => htext x (List.mem_cons_of_mem a hx))
    rcases isTextCell_elim (htext a (List.mem_cons_self a as)) with ⟨v, rfl⟩ | rfl
    · rw [dropna, List.filter_cons]
      rw [dropna] at hih
      simp only [hih, nonNullStrs, List.filterMap_cons]
      rfl
    · rw [dropna, List.filter_cons]
      rw [dropna] at hih
      simp only [hih, nonNullStrs, List.filterMap_cons]
      rfl

/-- `dedup` commutes with a map that is injective on the list. -/
theorem dedup_map_inj_on {α β : Type} [DecidableEq α] [DecidableEq β]
    (f : α → β) : ∀ (l : List α),
    (∀ x ∈ l, ∀ y ∈ l, f x = f y → x = y) → (l.map f).dedup = l.dedup.map f
  | [], _ => rfl
  | a :: l, hf => by
    have htail : ∀ x ∈ l, ∀ y ∈ l, f x = f y → x = y := fun x hx y hy =>
      hf x (List.mem_cons_of_mem a hx) y (List.mem_cons_of_mem a hy)
    rw [List.map_cons]
    by_cases hmem : a ∈ l
    · rw [List.dedup_cons_of_mem hmem,
        List.dedup_cons_of_mem (List.mem_map_of_mem f hmem)]
      exact dedup_map_inj_on f l htail
    · have hfm : f a ∉ l.map f := by
        intro hfa
        obtain ⟨x, hx, hfx⟩ := List.mem_map.mp hfa
        exact hmem (hf a (List.mem_cons_self a l) x (List.mem_cons_of_mem a hx) hfx.symm ▸ hx)
      rw [List.dedup_cons_of_not_mem hmem, List.dedup_cons_of_not_mem hfm,
        List.map_cons]
      rw [dedup_map_inj_on f l htail]

/-- In a nodup-named table, looking a member column up by name finds
that very column. -/
theorem findCol_of_nodup {cols : List Col} {c : Col}
    (hnd : (cols.map (fun x => x.name)).Nodup) (hc : c ∈ cols) :
    (Table.mk cols).cols.find? (fun x => decide (x.name = c.name)) = some c := by
  induction cols with
  | nil => exact absurd hc (List.not_mem_nil c)
  | cons a as ih =>
    rw [List.map_cons, List.nodup_cons] at hnd
    rcases List.mem_cons.mp hc with rfl | hmem
    · rw [List.find?_cons_of_pos _ (by simp)]
    · have hne : a.name ≠ c.name := by
        intro h
        exact hnd.1 (h ▸ List.mem_map_of_mem (fun x => x.name) hmem)
      rw [List.find?_cons_of_neg _ (by simpa using hne)]
      exact ih hnd.2 hmem

/-- Membership description of `objColNames`. -/
theorem mem_objColNames {df : Table} {target n : String} :
    n ∈ objColNames df target ↔
      ∃ c ∈ df.cols, c.name = n ∧ c.dtype = Dtype.object ∧ n ≠ target := by
  rw [objColNames]
  constructor
  · intro h
    obtain ⟨c, hc, hceq⟩ := List.mem_map.mp h
    subst hceq
    rw [List.mem_filter] at hc
    have hdec := of_decide_eq_true hc.2
    exact ⟨c, hc.1, rfl, hdec.1, hdec.2⟩
  · rintro ⟨c, hc, rfl, hdt, hnt⟩
    exact List.mem_map_of_mem _ (List.mem_filter.mpr ⟨hc, decide_eq_true ⟨hdt, hnt⟩⟩)

/-- When `_map_binary_series` returns an object-typed series (given an
object-typed input), nothing was mapped: the series is returned
unchanged and its distinct stringified values do not number two. -/
theorem map_binary_series_object {s : Series}
    (h : (_map_binary_series s).dtype = Dtype.object) :
    _map_binary_series s = s ∧ ((uniqueCells s.cells).map cellStr).length ≠ 2 := by
  rw [_map_binary_series] at h ⊢
  by_cases h1 : ((uniqueCells s.cells).map cellStr).toFinset = {"Yes", "No"}
  · rw [if_pos h1] at h
    exact absurd h (by simp)
  · rw [if_neg h1] at h ⊢
    by_cases h2 : ((uniqueCells s.cells).map cellStr).toFinset = {"Male", "Female"}
    · rw [if_pos h2] at h
      exact absurd h (by simp)
    · rw [if_neg h2] at h ⊢
      by_cases h3 : ((uniqueCells s.cells).map cellStr).length = 2
      · rw [if_pos h3] at h
        exact absurd h (by simp)
      · rw [if_neg h3]
        exact ⟨rfl, h3⟩

/-- `astype(str)` is the identity on a column of pure string cells. -/
theorem astypeStrCells_of_str {l : List Cell}
    (hstr : ∀ x ∈ l, ∃ v, x = Cell.str v) : astypeStrCells l = l := by
  rw [astypeStrCells]
  have h0 : ∀ x ∈ l, Cell.str (cellStr x) = id x := by
    intro x hx
    obtain ⟨v, rfl⟩ := hstr x hx
    rfl
  rw [List.map_congr_left h0, List.map_id]

/-- The names of the columns are unchanged by each encoder step. -/
theorem binaryEncodeCol_name (bn : List String) (c : Col) :
    (binaryEncodeCol bn c).name = c.name := by
  rw [binaryEncodeCol]
  split <;> rfl

theorem boolToIntCol_name (c : Col) : (boolToIntCol c).name = c.name := by
  rw [boolToIntCol]
  split <;> rfl

theorem cleanupCol_name (bn : List String) (c : Col) :
    (cleanupCol bn c).name = c.name := by
  rw [cleanupCol]
  split
  · split <;> rfl
  · rfl

/-- Indicator columns are boolean-typed. -/
theorem dummiesForCol_dtype {c d : Col} (hd : d ∈ dummiesForCol c) :
    d.dtype = Dtype.boolT := by
  rw [dummiesForCol] at hd
  obtain ⟨v, _, rfl⟩ := List.mem_map.mp hd
  rfl

/-- Claim C3 (corrected, counterexample): a text column with a single
distinct value is neither binary nor multi-valued, so `build_features`
leaves it untouched and the returned table still has an object-typed
column. -/
theorem build_features_object_remains_cex :
    ((build_features ⟨[⟨"k", .object, [.str "x", .str "x"]⟩]⟩ "Churn").cols.any
      (fun c => decide (c.dtype = Dtype.object))) = true := by
  decide

/-- Claim C3 (amended): for a table with distinct column names whose
object columns hold only text or missing values, every object-typed
column of the `build_features` output is either the target column, or
stems from a text column with at most one distinct non-missing value,
or from a two-valued text column that contains missing entries; every
other column is numeric or a boolean indicator. -/
theorem build_features_object_columns (df : Table) (target : String)
    (hnodup : (df.cols.map (fun x => x.name)).Nodup)
    (htext : ∀ c ∈ df.cols, c.dtype = Dtype.object →
      ∀ x ∈ c.cells, isTextCell x = true) :
    ∀ c2 ∈ (build_features df target).cols, c2.dtype = Dtype.object →
      c2.name = target ∨ ∃ c ∈ df.cols, c.name = c2.name ∧ c.dtype = Dtype.object ∧
        (colNunique c ≤ 1 ∨ (colNunique c = 2 ∧ Cell.na ∈ c.cells)) := by
  intro c2 hc2 hdt2
  rw [build_features] at hc2
  rw [cleanupStep] at hc2
  obtain ⟨c5, hc5, hceq5⟩ := List.mem_map.mp hc2
  have hc25 : c2 = c5 := by
    rw [cleanupCol] at hceq5
    by_cases hb : c5.name ∈ binaryColNames df target
    · rw [if_pos hb] at hceq5
      by_cases hi : isIntegerDtype c5.dtype = true
      · rw [if_pos hi] at hceq5
        rw [← hceq5] at hdt2
        exact absurd hdt2 (by simp)
      · rw [if_neg hi] at hceq5
        exact hceq5.symm
    · rw [if_neg hb] at hceq5
      exact hceq5.symm
  subst hc25
  -- peel the one-hot step: an object column survives it untouched and
  -- is not one of the encoded (multi) columns
  rw [getDummiesStep] at hc5
  have hstep5 : c2 ∈ (boolStep (binaryEncodeStep df (binaryColNames df target))).cols ∧
      c2.name ∉ multiColNames df target := by
    by_cases hmE : (multiColNames df target).isEmpty = true
    · rw [if_pos hmE] at hc5
      rw [List.isEmpty_iff] at hmE
      rw [hmE]
      exact ⟨hc5, List.not_mem_nil _⟩
    · rw [if_neg hmE] at hc5
      rcases List.mem_append.mp hc5 with hk | hd
      · rw [List.mem_filter] at hk
        exact ⟨hk.1, of_decide_eq_true hk.2⟩
      · exfalso
        obtain ⟨n, _, hn⟩ := List.mem_flatMap.mp hd
        cases hfc : findCol (boolStep (binaryEncodeStep df (binaryColNames df target))) n with
        | none => rw [hfc] at hn; exact absurd hn (List.not_mem_nil _)
        | some cc =>
          rw [hfc] at hn
          exact absurd hdt2 (by rw [dummiesForCol_dtype hn]; simp)
  obtain ⟨hc4, hnm⟩ := hstep5
  -- peel the bool cast
  rw [boolStep] at hc4
  obtain ⟨c3, hc3, hceq3⟩ := List.mem_map.mp hc4
  have hc23 : c2 = c3 := by
    rw [boolToIntCol] at hceq3
    by_cases hbt : c3.dtype = Dtype.boolT
    · rw [if_pos hbt] at hceq3
      rw [← hceq3] at hdt2
      exact absurd hdt2 (by simp)
    · rw [if_neg hbt] at hceq3
      exact hceq3.symm
  subst hc23
  -- peel the binary encoding
  rw [binaryEncodeStep] at hc3
  obtain ⟨c0, hc0, hceq0⟩ := List.mem_map.mp hc3
  rw [binaryEncodeCol] at hceq0
  by_cases hb0 : c0.name ∈ binaryColNames df target
  · -- a binary column stayed object: the mapping fell through, which
    -- under the text assumption forces a missing entry
    rw [if_pos hb0] at hceq0
    have hname : c2.name = c0.name := by rw [← hceq0]
    have hsdt : (_map_binary_series
        ⟨Dtype.object, astypeStrCells c0.cells⟩).dtype = Dtype.object := by
      rw [← hceq0] at hdt2
      exact hdt2
    obtain ⟨_, hlen2⟩ := map_binary_series_object hsdt
    -- identify c0 as the object column behind its name
    have hobjn : c0.name ∈ objColNames df target := by
      rw [binaryColNames, List.mem_filter] at hb0
      exact hb0.1
    obtain ⟨c', hc', hceq', hdt', hnt'⟩ := mem_objColNames.mp hobjn
    have hcc : c' = c0 := List.inj_on_of_nodup_map hnodup hc' hc0 hceq'
    have hdt0 : c0.dtype = Dtype.object := by
      rw [← hcc]
      exact hdt'
    have hnu : colNunique c0 = 2 := by
      rw [binaryColNames, List.mem_filter] at hb0
      have h2 := of_decide_eq_true hb0.2
      rw [tableNunique, findCol, findCol_of_nodup hnodup hc0] at h2
      exact h2
    refine Or.inr ⟨c0, hc0, hname.symm, hdt0, Or.inr ⟨hnu, ?_⟩⟩
    by_contra hna
    have hstr : ∀ x ∈ c0.cells, ∃ v, x = Cell.str v := by
      intro x hx
      rcases isTextCell_elim (htext c0 hc0 hdt0 x hx) with h | rfl
      · exact h
      · exact absurd hx hna
    rw [astypeStrCells_of_str hstr] at hlen2
    rw [List.length_map] at hlen2
    exact hlen2 hnu
  · -- an untouched object column: either the target or a column that
    -- was classified neither binary nor multi
    rw [if_neg hb0] at hceq0
    subst hceq0
    by_cases ht : c0.name = target
    · exact Or.inl ht
    · refine Or.inr ⟨c0, hc0, rfl, hdt2, Or.inl ?_⟩
      have hobjn : c0.name ∈ objColNames df target :=
        mem_objColNames.mpr ⟨c0, hc0, rfl, hdt2, ht⟩
      have hne2 : tableNunique df c0.name ≠ 2 := by
        intro h2
        exact hb0 (by
          rw [binaryColNames, List.mem_filter]
          exact ⟨hobjn, decide_eq_true h2⟩)
      have hng2 : ¬(tableNunique df c0.name > 2) := by
        intro h2
        exact hnm (by
          rw [multiColNames, List.mem_filter]
          exact ⟨hobjn, decide_eq_true h2⟩)
      have htn : tableNunique df c0.name = colNunique c0 := by
        rw [tableNunique, findCol, findCol_of_nodup hnodup hc0]
      omega

/-- Witness for the amended C3: a one-column table whose gender column
is binary-encoded, leaving no object column outside the allowed
cases. -/
theorem build_features_object_columns_witness :
    (([⟨"gender", Dtype.object, [Cell.str "Male", Cell.str "Female"]⟩].map
        (fun x => Col.name x)).Nodup ∧
     (∀ c ∈ (Table.mk [⟨"gender", Dtype.object, [Cell.str "Male", Cell.str "Female"]⟩]).cols,
       c.dtype = Dtype.object → ∀ x ∈ c.cells, isTextCell x = true)) ∧
    (∀ c2 ∈ (build_features ⟨[⟨"gender", Dtype.object,
        [Cell.str "Male", Cell.str "Female"]⟩]⟩ "Churn").cols,
      c2.dtype = Dtype.object →
      c2.name = "Churn" ∨ ∃ c ∈ (Table.mk [⟨"gender", Dtype.object,
          [Cell.str "Male", Cell.str "Female"]⟩]).cols,
        c.name = c2.name ∧ c.dtype = Dtype.object ∧
        (colNunique c ≤ 1 ∨ (colNunique c = 2 ∧ Cell.na ∈ c.cells))) :=
  ⟨⟨by decide, by decide⟩,
    build_features_object_columns
      ⟨[⟨"gender", Dtype.object, [Cell.str "Male", Cell.str "Female"]⟩]⟩ "Churn"
      (by decide) (by decide)⟩

/-- Appending on the left is cancellable for strings. -/
theorem string_append_left_cancel {a v w : String} (h : a ++ v = a ++ w) :
    v = w := by
  have hd := congrArg String.data h
  rw [String.data_append, String.data_append] at hd
  have hvw := List.append_cancel_left hd
  cases v
  cases w
  simp only at hvw
  rw [hvw]

/-- The sorted distinct categories of a text column number exactly its
distinct non-missing values. -/
theorem dummyCats_length {c : Col} (htext : ∀ x ∈ c.cells, isTextCell x = true) :
    (dummyCats c).length = colNunique c := by
  rw [dummyCats, (List.perm_insertionSort _ _).length_eq, colNunique, uniqueCells,
    dropna_eq_map_nonNullStrs htext,
    dedup_map_inj_on Cell.str _ (fun x _ y _ h => Cell.str.inj h), List.length_map]

/-- The sorted categories are distinct. -/
theorem dummyCats_nodup (c : Col) : (dummyCats c).Nodup := by
  rw [dummyCats]
  exact ((List.perm_insertionSort _ _).nodup_iff).mpr (List.nodup_dedup _)

/-- `find?` by name commutes with a name-preserving column map. -/
theorem find_map_name_preserving (F : Col → Col) (hF : ∀ x, (F x).name = x.name)
    (n : String) : ∀ cols : List Col,
    (cols.map F).find? (fun x => decide (x.name = n)) =
      (cols.find? (fun x => decide (x.name = n))).map F
  | [] => rfl
  | a :: as => by
    rw [List.map_cons]
    by_cases ha : a.name = n
    · rw [List.find?_cons_of_pos _ (by simpa [hF] using ha),
        List.find?_cons_of_pos _ (by simpa using ha)]
      rfl
    · rw [List.find?_cons_of_neg _ (by simpa [hF] using ha),
        List.find?_cons_of_neg _ (by simpa using ha)]
      exact find_map_name_preserving F hF n as

/-- The composite per-column transform of steps 3 and 4. -/
def step34Col (binNames : List String) (c : Col) : Col :=
  boolToIntCol (binaryEncodeCol binNames c)

theorem step34Col_name (binNames : List String) (c : Col) :
    (step34Col binNames c).name = c.name := by
  rw [step34Col, boolToIntCol_name, binaryEncodeCol_name]

/-- Steps 3 and 4 together map each column by `step34Col`. -/
theorem boolStep_binaryEncodeStep (df : Table) (binNames : List String) :
    boolStep (binaryEncodeStep df binNames) =
      ⟨df.cols.map (step34Col binNames)⟩ := by
  rw [boolStep, binaryEncodeStep, List.map_map]
  rfl

/-- A non-binary object column passes through steps 3 and 4 unchanged. -/
theorem step34Col_id {binNames : List String} {c : Col}
    (hnb : c.name ∉ binNames) (hdt : c.dtype = Dtype.object) :
    step34Col binNames c = c := by
  rw [step34Col, binaryEncodeCol, if_neg hnb, boolToIntCol,
    if_neg (by rw [hdt]; simp)]

/-- Claim C5: a non-target text column with k > 2 distinct non-missing
values is replaced by exactly k−1 boolean indicator columns whose names
combine the column name and a category value, and the original column
is absent from the returned table. -/
theorem build_features_one_hot (df : Table) (target : String) (c : Col) (k : Nat)
    (hnodup : (df.cols.map (fun x => x.name)).Nodup)
    (hc : c ∈ df.cols) (hobj : c.dtype = Dtype.object) (hnt : c.name ≠ target)
    (htext : ∀ x ∈ c.cells, isTextCell x = true)
    (hk : colNunique c = k) (hk2 : 2 < k)
    (hcoll : ∀ c2 ∈ df.cols, ∀ v ∈ dummyCats c2, c2.name ++ "_" ++ v ≠ c.name) :
    (dummiesForCol c).length = k - 1 ∧
    ((dummiesForCol c).map (fun d => d.name)).Nodup ∧
    (∀ d ∈ dummiesForCol c, d ∈ (build_features df target).cols ∧
      ∃ v ∈ dummyCats c, d.name = c.name ++ "_" ++ v) ∧
    (∀ c2 ∈ (build_features df target).cols, c2.name ≠ c.name) := by
  have htn : tableNunique df c.name = k := by
    rw [tableNunique, findCol, findCol_of_nodup hnodup hc]
    exact hk
  have hobjn : c.name ∈ objColNames df target :=
    mem_objColNames.mpr ⟨c, hc, rfl, hobj, hnt⟩
  have hnbin : c.name ∉ binaryColNames df target := by
    intro hb
    rw [binaryColNames, List.mem_filter] at hb
    have h2 := of_decide_eq_true hb.2
    omega
  have hmulti : c.name ∈ multiColNames df target := by
    rw [multiColNames, List.mem_filter]
    exact ⟨hobjn, decide_eq_true (by omega)⟩
  have hmne : (multiColNames df target).isEmpty ≠ true := by
    intro h
    rw [List.isEmpty_iff] at h
    rw [h] at hmulti
    exact absurd hmulti (List.not_mem_nil _)
  have h34 : step34Col (binaryColNames df target) c = c := step34Col_id hnbin hobj
  have hfind4 : findCol (boolStep (binaryEncodeStep df (binaryColNames df target)))
      c.name = some c := by
    rw [boolStep_binaryEncodeStep, findCol]
    rw [find_map_name_preserving _ (step34Col_name _) c.name df.cols]
    have hf := findCol_of_nodup hnodup hc
    rw [hf]
    simp [h34]
  have hcatlen : (dummyCats c).length = k := by
    rw [dummyCats_length htext, hk]
  have hdlen : (dummiesForCol c).length = k - 1 := by
    rw [dummiesForCol, List.length_map, List.length_drop, hcatlen]
  have hdnames : (dummiesForCol c).map (fun d => d.name) =
      ((dummyCats c).drop 1).map (fun v => c.name ++ "_" ++ v) := by
    rw [dummiesForCol, List.map_map]
    rfl
  have hnodupd : ((dummiesForCol c).map (fun d => d.name)).Nodup := by
    rw [hdnames]
    refine List.Nodup.map_on ?_ ?_
    · intro x _ y _ hxy
      exact string_append_left_cancel hxy
    · exact (dummyCats_nodup c).sublist (List.drop_sublist 1 _)
  have hbf : build_features df target =
      cleanupStep (getDummiesStep (boolStep (binaryEncodeStep df
        (binaryColNames df target))) (multiColNames df target))
        (binaryColNames df target) := rfl
  have ht5 : getDummiesStep (boolStep (binaryEncodeStep df (binaryColNames df target)))
      (multiColNames df target) =
      ⟨((boolStep (binaryEncodeStep df (binaryColNames df target))).cols.filter
          (fun x => decide (x.name ∉ multiColNames df target))) ++
        (multiColNames df target).flatMap (fun n =>
          match findCol (boolStep (binaryEncodeStep df (binaryColNames df target))) n with
          | some cc => dummiesForCol cc
          | none => [])⟩ := by
    rw [getDummiesStep, if_neg hmne]
  have hcleand : ∀ d ∈ dummiesForCol c,
      cleanupCol (binaryColNames df target) d = d := by
    intro d hd
    have hbt := dummiesForCol_dtype hd
    rw [cleanupCol]
    by_cases hn : d.name ∈ binaryColNames df target
    · rw [if_pos hn, if_neg (by rw [hbt]; decide)]
    · rw [if_neg hn]
  have hmatch : (match findCol (boolStep (binaryEncodeStep df
        (binaryColNames df target))) c.name with
      | some cc => dummiesForCol cc
      | none => ([] : List Col)) = dummiesForCol c := by
    rw [hfind4]
  refine ⟨hdlen, hnodupd, ?_, ?_⟩
  · intro d hd
    constructor
    · rw [hbf, ht5, cleanupStep]
      apply List.mem_map.mpr
      refine ⟨d, ?_, hcleand d hd⟩
      apply List.mem_append_right
      exact List.mem_flatMap.mpr ⟨c.name, hmulti, by rw [hmatch]; exact hd⟩
    · obtain ⟨v, hv, rfl⟩ := List.mem_map.mp (show d ∈ ((dummyCats c).drop 1).map
          (fun v => (⟨c.name ++ "_" ++ v, Dtype.boolT,
            c.cells.map (fun x => Cell.bool (decide (x = Cell.str v)))⟩ : Col)) from hd)
      exact ⟨v, List.mem_of_mem_drop hv, rfl⟩
  · intro c2 hc2
    rw [hbf, ht5, cleanupStep] at hc2
    obtain ⟨x, hx, hxeq⟩ := List.mem_map.mp hc2
    have hxname : c2.name = x.name := by
      rw [← hxeq, cleanupCol_name]
    rw [hxname]
    rcases List.mem_append.mp hx with hkp | hdm
    · rw [List.mem_filter] at hkp
      intro heq
      exact (of_decide_eq_true hkp.2) (heq ▸ hmulti)
    · obtain ⟨n, hnm, hxn⟩ := List.mem_flatMap.mp hdm
      have hnobj : n ∈ objColNames df target := by
        rw [multiColNames, List.mem_filter] at hnm
        exact hnm.1
      obtain ⟨corig, hcor, hname_eq, hdtor, _⟩ := mem_objColNames.mp hnobj
      subst hname_eq
      have hnnb : corig.name ∉ binaryColNames df target := by
        intro hb
        rw [binaryColNames, List.mem_filter] at hb
        rw [multiColNames, List.mem_filter] at hnm
        have h2 := of_decide_eq_true hb.2
        have h3 := of_decide_eq_true hnm.2
        omega
      have hfindn : findCol (boolStep (binaryEncodeStep df
          (binaryColNames df target))) corig.name = some corig := by
        rw [boolStep_binaryEncodeStep, findCol]
        rw [find_map_name_preserving _ (step34Col_name _) corig.name df.cols]
        rw [findCol_of_nodup hnodup hcor]
        simp [step34Col_id hnnb hdtor]
      rw [hfindn] at hxn
      obtain ⟨v, hv, rfl⟩ := List.mem_map.mp (show x ∈ ((dummyCats corig).drop 1).map
          (fun v => (⟨corig.name ++ "_" ++ v, Dtype.boolT,
            corig.cells.map (fun y => Cell.bool (decide (y = Cell.str v)))⟩ : Col)) from hxn)
      exact hcoll corig hcor v (List.mem_of_mem_drop hv)

/-- Witness for C5: a three-valued Contract column next to a numeric
column expands to exactly two indicator columns and disappears
itself. -/
theorem build_features_one_hot_witness :
    ((([⟨"Contract", Dtype.object, [Cell.str "B", Cell.str "A", Cell.str "C"]⟩,
        ⟨"t", Dtype.int64, [Cell.int 1, Cell.int 2, Cell.int 3]⟩] : List Col).map
          (fun x => Col.name x)).Nodup ∧
     (⟨"Contract", Dtype.object, [Cell.str "B", Cell.str "A", Cell.str "C"]⟩ : Col) ∈
       ([⟨"Contract", Dtype.object, [Cell.str "B", Cell.str "A", Cell.str "C"]⟩,
         ⟨"t", Dtype.int64, [Cell.int 1, Cell.int 2, Cell.int 3]⟩] : List Col) ∧
     colNunique ⟨"Contract", Dtype.object,
       [Cell.str "B", Cell.str "A", Cell.str "C"]⟩ = 3) ∧
    ((dummiesForCol ⟨"Contract", Dtype.object,
        [Cell.str "B", Cell.str "A", Cell.str "C"]⟩).length = 3 - 1 ∧
     ((dummiesForCol ⟨"Contract", Dtype.object,
        [Cell.str "B", Cell.str "A", Cell.str "C"]⟩).map (fun d => d.name)).Nodup ∧
     (∀ d ∈ dummiesForCol ⟨"Contract", Dtype.object,
        [Cell.str "B", Cell.str "A", Cell.str "C"]⟩,
       d ∈ (build_features ⟨[⟨"Contract", Dtype.object,
          [Cell.str "B", Cell.str "A", Cell.str "C"]⟩,
          ⟨"t", Dtype.int64, [Cell.int 1, Cell.int 2, Cell.int 3]⟩]⟩ "Churn").cols ∧
       ∃ v ∈ dummyCats ⟨"Contract", Dtype.object,
          [Cell.str "B", Cell.str "A", Cell.str "C"]⟩,
         d.name = "Contract" ++ "_" ++ v) ∧
     (∀ c2 ∈ (build_features ⟨[⟨"Contract", Dtype.object,
          [Cell.str "B", Cell.str "A", Cell.str "C"]⟩,
          ⟨"t", Dtype.int64, [Cell.int 1, Cell.int 2, Cell.int 3]⟩]⟩ "Churn").cols,
       c2.name ≠ "Contract")) :=
  ⟨⟨by decide, by decide, by decide⟩,
    build_features_one_hot
      ⟨[⟨"Contract", Dtype.object, [Cell.str "B", Cell.str "A", Cell.str "C"]⟩,
        ⟨"t", Dtype.int64, [Cell.int 1, Cell.int 2, Cell.int 3]⟩]⟩ "Churn"
      ⟨"Contract", Dtype.object, [Cell.str "B", Cell.str "A", Cell.str "C"]⟩ 3
      (by decide) (by decide) (by decide) (by decide) (by decide) (by decide)
      (by decide) (by decide)⟩

/-- Mutating one frame leaves every other reference untouched. -/
theorem heapGet_set_of_ne {h2 : Heap} {i r : Nat} {t : Table} (hi : r ≠ i) :
    heapGet (heapSet h2 i t) r = heapGet h2 r := by
  rw [heapGet, heapSet, heapGet, List.getD_eq_getElem?_getD, List.getD_eq_getElem?_getD,
    List.getElem?_set_ne (fun hh => hi hh.symm)]

/-- Allocating new frames leaves existing references untouched. -/
theorem heapGet_append_lt {h2 : Heap} {l : List Table} {r : Nat}
    (hr : r < h2.length) :
    heapGet (h2 ++ l) r = heapGet h2 r := by
  rw [heapGet, heapGet, List.getD_eq_getElem?_getD, List.getD_eq_getElem?_getD,
    List.getElem?_append_left hr]

/-- Claim C10: `preprocess_data` and `build_features` both start from
`df = df.copy()` and mutate only the copy (or frames newly returned by
`drop` / `get_dummies`), so the caller's frame reads back unchanged
after either call. -/
theorem copy_preserves_caller_table (h : Heap) (r : Nat) (target : String)
    (hr : r < h.length) :
    heapGet (preprocess_data_prog h r target).1 r = heapGet h r ∧
    heapGet (build_features_prog h r target).1 r = heapGet h r := by
  constructor
  · rw [preprocess_data_prog]
    dsimp only
    set H0 : Heap := h ++ [heapGet h r] with hH0
    set H1 : Heap := heapSet H0 h.length (stripHeadersStep (heapGet H0 h.length)) with hH1
    set H2 : Heap := H1 ++ [dropIdsStep (heapGet H1 h.length)] with hH2
    set H3 : Heap := heapSet H2 H1.length (mapTargetStep (heapGet H2 H1.length) target)
      with hH3
    set H4 : Heap := heapSet H3 H1.length (totalChargesStep (heapGet H3 H1.length))
      with hH4
    have hlen0 : H0.length = h.length + 1 := by
      rw [hH0]
      simp
    have hlen1 : H1.length = h.length + 1 := by
      rw [hH1, heapSet, List.length_set, hlen0]
    have hg0 : heapGet H0 r = heapGet h r := by
      rw [hH0]
      exact heapGet_append_lt hr
    have hg1 : heapGet H1 r = heapGet h r := by
      rw [hH1, heapGet_set_of_ne (by omega), hg0]
    have hg2 : heapGet H2 r = heapGet h r := by
      rw [hH2, heapGet_append_lt (by omega), hg1]
    have hg3 : heapGet H3 r = heapGet h r := by
      rw [hH3, heapGet_set_of_ne (by omega), hg2]
    have hg4 : heapGet H4 r = heapGet h r := by
      rw [hH4, heapGet_set_of_ne (by omega), hg3]
    split
    · exact hg4
    · split
      · rw [heapGet_set_of_ne (by omega), hg4]
      · split
        · rw [heapGet_set_of_ne (by omega), heapGet_set_of_ne (by omega), hg4]
        · rw [heapGet_set_of_ne (by omega), heapGet_set_of_ne (by omega), hg4]
  · rw [build_features_prog]
    dsimp only
    set G0 : Heap := h ++ [heapGet h r] with hG0
    have hlen0 : G0.length = h.length + 1 := by
      rw [hG0]
      simp
    have hg0 : heapGet G0 r = heapGet h r := by
      rw [hG0]
      exact heapGet_append_lt hr
    set G1 : Heap := heapSet G0 h.length (binaryEncodeStep (heapGet G0 h.length)
      (binaryColNames (heapGet G0 h.length) target)) with hG1
    have hlen1 : G1.length = h.length + 1 := by
      rw [hG1, heapSet, List.length_set, hlen0]
    have hg1 : heapGet G1 r = heapGet h r := by
      rw [hG1, heapGet_set_of_ne (by omega), hg0]
    set G2 : Heap := heapSet G1 h.length (boolStep (heapGet G1 h.length)) with hG2
    have hlen2 : G2.length = h.length + 1 := by
      rw [hG2, heapSet, List.length_set, hlen1]
    have hg2 : heapGet G2 r = heapGet h r := by
      rw [hG2, heapGet_set_of_ne (by omega), hg1]
    split
    · rw [heapGet_set_of_ne (by omega), hg2]
    · dsimp only
      rw [heapGet_set_of_ne (by omega), heapGet_append_lt (by omega), hg2]

/-- Witness for C10 on a one-frame heap. -/
theorem copy_preserves_caller_table_witness :
    (0 < ([(⟨[⟨"Churn", Dtype.object, [Cell.str "Yes"]⟩]⟩ : Table)] : Heap).length) ∧
    (heapGet (preprocess_data_prog [⟨[⟨"Churn", Dtype.object, [Cell.str "Yes"]⟩]⟩]
        0 "Churn").1 0 =
      heapGet [⟨[⟨"Churn", Dtype.object, [Cell.str "Yes"]⟩]⟩] 0 ∧
     heapGet (build_features_prog [⟨[⟨"Churn", Dtype.object, [Cell.str "Yes"]⟩]⟩]
        0 "Churn").1 0 =
      heapGet [⟨[⟨"Churn", Dtype.object, [Cell.str "Yes"]⟩]⟩] 0) :=
  ⟨by decide,
    copy_preserves_caller_table [⟨[⟨"Churn", Dtype.object, [Cell.str "Yes"]⟩]⟩]
      0 "Churn" (by decide)⟩

end Telco
